import Mathlib

/-! # RapidReads bookstore backend (`server.js`)

A shallow embedding of the request handlers of `server.js` and the properties
of them that the specification states.

Modelling conventions

* A JavaScript string is a Lean `String`; `length` is counted in UTF-16 code
  units (`jsLength`), as `String.prototype.length` does.
* The document store is an explicit `Store` value holding the three
  collections the handlers touch.  Every handler returns its response, the
  store it leaves behind and the list of store calls it made.  Store calls
  are total functions of the state: a driver exception (and the 500 response
  it leads to) is only modelled where the source handles it itself, in the
  chatbot's count query.
* Library and language functions the server calls but does not define (token
  signing and verification, password hashing, `ObjectId`, the clock, Unicode
  case mapping outside ASCII, conversions of values that are not plain
  numbers or integer strings, regular expressions beyond the modelled
  fragment) are fields of a `Runtime` record that every handler takes as an
  argument.
* A Number is an IEEE double (`JsNumber`), with its rounding.  The fields of
  the bodies of `/auth/register`, `/auth/login` and the `quantity` of
  `/cart/add` are JSON values of any type (`JsValue`).  The chatbot message
  and the search query are strings or absent.
-/

namespace RapidReads

/-! ## JavaScript string primitives -/

/-- Code points that are white space or line terminators in ECMAScript: the
set removed by `trim`, skipped by `parseInt` and matched by `\s`. -/
def isWhiteSpace (c : Char) : Bool :=
  let n := c.toNat
  n == 0x09 || n == 0x0A || n == 0x0B || n == 0x0C || n == 0x0D || n == 0x20 ||
  n == 0xA0 || n == 0x1680 || (0x2000 ≤ n && n ≤ 0x200A) || n == 0x2028 ||
  n == 0x2029 || n == 0x202F || n == 0x205F || n == 0x3000 || n == 0xFEFF

/-- Number of UTF-16 code units of one code point. -/
def codeUnits (c : Char) : Nat := if c.toNat < 0x10000 then 1 else 2

/-- Value of `s.length` in JavaScript: the number of UTF-16 code units. -/
def jsLength (s : List Char) : Nat := (s.map codeUnits).sum

/-- Remove trailing white space. -/
def trimEnd : List Char → List Char
  | [] => []
  | c :: cs =>
    match trimEnd cs with
    | [] => if isWhiteSpace c then [] else [c]
    | r => c :: r

/-- Model of `String.prototype.trim`. -/
def trim (s : List Char) : List Char := trimEnd (s.dropWhile isWhiteSpace)

/-- Test whether `k` is a prefix of `s`. -/
def startsWith : List Char → List Char → Bool
  | _, [] => true
  | [], _ :: _ => false
  | c :: s, d :: k => c == d && startsWith s k

/-- Model of `String.prototype.includes`: `k` occurs in `s` at some position. -/
def includes : List Char → List Char → Bool
  | [], k => startsWith [] k
  | c :: s, k => startsWith (c :: s) k || includes s k

/-- Lower-case one Basic Latin letter. -/
def asciiLower (c : Char) : Char :=
  if 'A'.toNat ≤ c.toNat ∧ c.toNat ≤ 'Z'.toNat then Char.ofNat (c.toNat + 32) else c

/-- Pieces of `s` between occurrences of the separator `sep`
(`String.prototype.split` with a one-character separator). -/
def splitChar (sep : Char) : List Char → List (List Char)
  | [] => [[]]
  | c :: cs =>
    match splitChar sep cs with
    | [] => if c == sep then [[], []] else [[c]]
    | p :: ps => if c == sep then [] :: p :: ps else (c :: p) :: ps

/-! ## `parseInt` -/

/-- Value of a digit in radix 10 or 16. -/
def digitValue (radix : Nat) (c : Char) : Option Nat :=
  let n := c.toNat
  let v : Option Nat :=
    if 48 ≤ n ∧ n ≤ 57 then some (n - 48)
    else if 97 ≤ n ∧ n ≤ 102 then some (n - 87)
    else if 65 ≤ n ∧ n ≤ 70 then some (n - 55)
    else none
  match v with
  | some d => if d < radix then some d else none
  | none => none

/-- Read the longest run of radix digits at the front of `s`, continuing from
the accumulated value `acc`; `any` tells whether a digit was read. -/
def readDigits (radix : Nat) : List Char → Nat → Bool → Option Nat
  | [], acc, any => if any then some acc else none
  | c :: cs, acc, any =>
    match digitValue radix c with
    | some d => readDigits radix cs (acc * radix + d) true
    | none => if any then some acc else none

/-- Number of binary digits of `m`, computed with `fuel` steps. -/
def bitLength : Nat → Nat → Nat
  | 0, _ => 0
  | fuel + 1, m => if m = 0 then 0 else bitLength fuel (m / 2) + 1

/-- Conversion of a natural number to a Number value (an IEEE double):
exact below `2^53`, otherwise rounded to 53 significant bits, ties to even;
`none` when the result is `Infinity`. -/
def toNumber (m : Nat) : Option Nat :=
  if m < 2 ^ 53 then some m
  else
    let e := bitLength m m - 53
    let q := m / 2 ^ e
    let r := m % 2 ^ e
    let half := 2 ^ (e - 1)
    let q1 := if half < r ∨ (r = half ∧ q % 2 = 1) then q + 1 else q
    if q1 * 2 ^ e < 2 ^ 1024 then some (q1 * 2 ^ e) else none

/-- Model of `parseInt(s)` with no radix argument, for the comparison of its
result with an integer field: `none` when the result is `NaN` or an infinity,
which equal no integer.  Leading white space is skipped, a sign is read, a
`0x` or `0X` prefix selects radix 16, and the longest run of digits is
converted; anything after that run is ignored. -/
def parseInt (s : List Char) : Option Int :=
  let t := s.dropWhile isWhiteSpace
  let neg := t.head? == some '-'
  let u := if t.head? == some '-' || t.head? == some '+' then t.tail else t
  let hex := startsWith u ['0', 'x'] || startsWith u ['0', 'X']
  let z := if hex then readDigits 16 (u.drop 2) 0 false else readDigits 10 u 0 false
  match z with
  | none => none
  | some m =>
    match toNumber m with
    | none => none
    | some v => some (if neg then - (v : Int) else (v : Int))

/-! ## Numbers -/

/-- A Number value (an IEEE double).  A finite value is `num / 2 ^ scale`,
kept in lowest terms: `scale = 0` or `num` odd.  The two zeros are not told
apart. -/
inductive JsNumber where
  | nan
  | inf (neg : Bool)
  | fin (num : Int) (scale : Nat)
  deriving DecidableEq, Repr

/-- Lowest terms of `m / 2 ^ k`, computed with `fuel` halvings. -/
def reduceDyadic : Nat → Int → Nat → Int × Nat
  | 0, m, k => (m, k)
  | fuel + 1, m, k =>
    match k with
    | 0 => (m, 0)
    | k1 + 1 => if m % 2 = 0 then reduceDyadic fuel (m / 2) k1 else (m, k1 + 1)

/-- Quotient of `n` by `d` rounded to the nearest natural number, ties to even. -/
def roundDiv (n d : Nat) : Nat :=
  let f := n / d
  let r := n % d
  if 2 * r < d then f else if d < 2 * r then f + 1 else if f % 2 = 0 then f else f + 1

/-- The double nearest to `m / 2 ^ k`, ties to even: 53 significant bits,
least exponent `-1074`, an infinity when the rounded value needs more than
1024 binary digits, that is from `2 ^ 1024` on.  An integer of
magnitude at most `2 ^ 53` is a double and is returned as it is. -/
def roundDyadic (m : Int) (k : Nat) : JsNumber :=
  if k = 0 ∧ m.natAbs ≤ 2 ^ 53 then .fin m 0
  else
    let a := m.natAbs
    -- `2 ^ e ≤ a / 2 ^ k < 2 ^ (e + 1)`
    let e : Int := (bitLength a a : Int) - 1 - k
    -- exponent of the last kept bit
    let t : Int := max (e - 52) (-1074)
    -- mantissa: `a / 2 ^ (k + t)` rounded
    let mant : Nat :=
      if 0 ≤ (k : Int) + t then roundDiv a (2 ^ ((k : Int) + t).toNat)
      else a * 2 ^ (-((k : Int) + t)).toNat
    if 0 ≤ t then
      if bitLength mant mant + t.toNat ≤ 1024 then
        .fin ((if m < 0 then -1 else 1) * (mant * 2 ^ t.toNat : Nat)) 0
      else .inf (decide (m < 0))
    else
      let r := reduceDyadic (-t).toNat ((if m < 0 then -1 else 1) * (mant : Int)) (-t).toNat
      .fin r.1 r.2

/-- The Number of an integer. -/
def JsNumber.ofInt (n : Int) : JsNumber := roundDyadic n 0

/-- Unary minus. -/
def JsNumber.neg : JsNumber → JsNumber
  | .nan => .nan
  | .inf s => .inf (!s)
  | .fin m k => .fin (-m) k

/-- Addition of doubles. -/
def JsNumber.add : JsNumber → JsNumber → JsNumber
  | .nan, _ => .nan
  | _, .nan => .nan
  | .inf s, .inf t => if s = t then .inf s else .nan
  | .inf s, .fin _ _ => .inf s
  | .fin _ _, .inf t => .inf t
  | .fin a j, .fin b k =>
    roundDyadic (a * 2 ^ (max j k - j) + b * 2 ^ (max j k - k)) (max j k)

/-- The comparison `x < y` of two Numbers: false when either is `NaN`. -/
def JsNumber.lt : JsNumber → JsNumber → Bool
  | .nan, _ => false
  | _, .nan => false
  | .inf s, .inf t => s && !t
  | .inf s, .fin _ _ => s
  | .fin _ _, .inf t => !t
  | .fin a j, .fin b k => decide (a * 2 ^ (max j k - j) < b * 2 ^ (max j k - k))

/-! ## Request values -/

/-- A value of a parsed JSON body, or `undefined` for a field that is absent.
An array or an object is kept as its JSON text. -/
inductive JsValue where
  | undefined
  | null
  | bool (b : Bool)
  | num (x : JsNumber)
  | str (s : String)
  | composite (json : String)
  deriving DecidableEq, Repr

/-- The negation of the test `!x`: every value is truthy but `undefined`,
`null`, `false`, zero, `NaN` and the empty string. -/
def truthy : JsValue → Bool
  | .undefined => false
  | .null => false
  | .bool b => b
  | .num x => !(x == .nan || x == .fin 0 0)
  | .str s => !s.data.isEmpty
  | .composite _ => true

/-- A decimal digit. -/
def isDecimalDigit (c : Char) : Bool := 48 ≤ c.toNat && c.toNat ≤ 57

/-- The number a run of decimal digits denotes. -/
def decimalValue (ds : List Char) : Nat :=
  ds.foldl (fun acc c => acc * 10 + (c.toNat - 48)) 0

/-! ## Data model -/

/-- A store identifier (the 12-byte value of an `ObjectId`). -/
abbrev ObjectId := Nat

/-- A document of the `Users` collection. -/
structure User where
  _id : ObjectId
  firstName : String
  lastName : String
  email : String
  password : String
  createdAt : Nat
  updatedAt : Nat
  lastLogin : Option Nat
  deriving DecidableEq, Repr

/-- A document of the `Products` collection. -/
structure Product where
  _id : ObjectId
  id : Int
  title : String
  author : String
  genre : String
  price : Int
  image : String
  AvailableInventory : JsNumber
  description : String
  deriving DecidableEq, Repr

/-- A document of the `Cart` collection, as built by `/cart/add`. -/
structure CartItem where
  userId : ObjectId
  productId : Int
  quantity : JsValue
  addedAt : Nat
  deriving DecidableEq, Repr

/-- The collections of the `Bookstore` database. -/
structure Store where
  Users : List User
  Products : List Product
  Cart : List CartItem
  deriving DecidableEq, Repr

/-- The payload of a token: what `jwt.sign` is given and `jwt.verify` returns. -/
structure Identity where
  id : String
  email : String
  firstName : String
  lastName : String
  deriving DecidableEq, Repr

/-- The user projection returned by register and login. -/
structure PublicUser where
  _id : ObjectId
  firstName : String
  lastName : String
  email : String
  deriving DecidableEq, Repr

/-- JSON bodies the handlers send.  The `error` text that the 500 responses
copy from a library exception is not represented. -/
inductive Body where
  | message (message : String)
  | auth (message : String) (token : String) (user : PublicUser)
  | products (items : List Product)
  | product (item : Product)
  | reply (response : String)
  | stats (users : Nat) (products : Nat) (serverStatus : String)
  deriving DecidableEq, Repr

/-- An HTTP response: status code and JSON body. -/
structure Response where
  status : Nat
  body : Body
  deriving DecidableEq, Repr

/-- A call made to the store driver. -/
inductive DbCall where
  | findOne (collection : String)
  | find (collection : String)
  | insertOne (collection : String)
  | updateOne (collection : String)
  | countDocuments (collection : String)
  deriving DecidableEq, Repr

/-- What handling one request produces. -/
structure Result where
  response : Response
  store : Store
  calls : List DbCall
  deriving DecidableEq, Repr

/-- Library behaviour the server relies on, fixed for one request. -/
structure Runtime where
  /-- The function `jwt.verify(token, JWT_SECRET)`: the payload, or `none` when it throws. -/
  jwtVerify : String → Option Identity
  /-- The function `jwt.sign(payload, JWT_SECRET, ...)`. -/
  jwtSign : Identity → String
  /-- The function `bcrypt.hash(password, 12)` with the salt it draws. -/
  bcryptHash : String → String
  /-- The function `bcrypt.compare(password, hash)`. -/
  bcryptCompare : String → String → Bool
  /-- The constructor `new ObjectId(s)`: `none` when it throws, which is when
  `ObjectId.isValid(s)` is false. -/
  objectId : String → Option ObjectId
  /-- Hexadecimal text of an identifier, as a token payload carries it. -/
  objectIdHex : ObjectId → String
  /-- The identifier the driver assigns to a document inserted without one. -/
  insertedId : ObjectId
  /-- The value of `new Date()`. -/
  now : Nat
  /-- The function `String.prototype.toLowerCase` on strings with a character outside ASCII. -/
  unicodeLower : List Char → List Char
  /-- Whether the store's case-insensitive regular expression matching lets
  the pattern character `a` match the different text character `b`, for a
  pair with a character outside ASCII. -/
  unicodeCaseEq : Char → Char → Bool
  /-- The store's matcher for a pattern that uses regular expression syntax
  outside the modelled fragment: `none` when the pattern is rejected. -/
  regExpOther : List Char → Option (List Char → Bool)
  /-- The conversion of a string to a Number, for a trimmed string that is
  neither empty nor a sign followed by decimal digits. -/
  stringToNumberOther : List Char → JsNumber
  /-- The conversion of a Number to a string. -/
  numberToString : JsNumber → List Char
  /-- The conversion of an array or object, given by its JSON text, to a
  primitive, which is a string: `none` when it throws a `TypeError`. -/
  toPrimitive : String → Option (List Char)
  /-- The `length` property of an array or object, given by its JSON text. -/
  lengthOf : String → JsValue

/-- Model of `String.prototype.toLowerCase`. -/
def toLowerCase (rt : Runtime) (s : List Char) : List Char :=
  if s.all (fun c => c.toNat < 128) then s.map asciiLower else rt.unicodeLower s

/-! ## Conversions -/

/-- The conversion of a string to a Number: white space is trimmed, the empty
string is 0, a sign followed by decimal digits is that integer, rounded. -/
def stringToNumber (rt : Runtime) (s : List Char) : JsNumber :=
  let t := trim s
  let ds := if t.head? == some '-' || t.head? == some '+' then t.tail else t
  if t.isEmpty then .fin 0 0
  else if !ds.isEmpty && ds.all isDecimalDigit then
    JsNumber.ofInt (if t.head? == some '-' then - (decimalValue ds : Int) else decimalValue ds)
  else rt.stringToNumberOther t

/-- The conversion `ToNumber` of a value, as unary minus and the comparison
with a Number apply it: `none` when it throws a `TypeError`. -/
def JsValue.toNumber (rt : Runtime) : JsValue → Option JsNumber
  | .undefined => some .nan
  | .null => some (.fin 0 0)
  | .bool b => some (if b then .fin 1 0 else .fin 0 0)
  | .num x => some x
  | .str s => some (stringToNumber rt s.data)
  | .composite j => (rt.toPrimitive j).map (stringToNumber rt)

/-- The conversion `ToString` of a value, as `RegExp.prototype.test` applies
it: `none` when it throws a `TypeError`. -/
def JsValue.toText (rt : Runtime) : JsValue → Option (List Char)
  | .undefined => some "undefined".data
  | .null => some "null".data
  | .bool b => some (if b then "true".data else "false".data)
  | .num x => some (rt.numberToString x)
  | .str s => some s.data
  | .composite j => rt.toPrimitive j

/-- The property `x.length` of a truthy value: the number of code units of a
string, which is far below `2 ^ 53`; nothing for a number or a boolean. -/
def JsValue.length (rt : Runtime) : JsValue → JsValue
  | .str s => .num (.fin (jsLength s.data) 0)
  | .composite j => rt.lengthOf j
  | _ => .undefined

/-! ## Auth middleware -/

/-- What a middleware does with a request: pass it on, or answer it. -/
inductive Outcome (α : Type) where
  | next (req : α)
  | respond (res : Response)
  deriving DecidableEq, Repr

/-- The expression `req.headers.authorization?.split(' ')[1]`, with the test
`!token` applied: the second space-separated piece when it exists and is not
empty. -/
def extractToken (authorization : Option String) : Option String :=
  match authorization with
  | none => none
  | some h =>
    match (splitChar ' ' h.data)[1]? with
    | none => none
    | some t => if t.isEmpty then none else some (String.mk t)

/-- Model of `verifyToken`: the outcome carries the identity attached to the request. -/
def verifyToken (rt : Runtime) (authorization : Option String) : Outcome Identity :=
  match extractToken authorization with
  | none => .respond ⟨401, .message "No token provided"⟩
  | some token =>
    match rt.jwtVerify token with
    | some decoded => .next decoded
    | none => .respond ⟨401, .message "Invalid token"⟩

/-- A route `app.METHOD(path, verifyToken, handler)`. -/
def protect (rt : Runtime) (authorization : Option String) (s : Store)
    (handler : Identity → Result) : Result :=
  match verifyToken rt authorization with
  | .respond res => ⟨res, s, []⟩
  | .next user => handler user

/-! ## Regular expressions -/

/-- The fragment of regular expression syntax the server's patterns are
modelled in: a literal character, one character of a class, and one or more
characters of a class. -/
inductive Atom where
  | lit (c : Char)
  | cls (p : Char → Bool)
  | plus (p : Char → Bool)

/-- Backtracking matcher: the atoms match a prefix of the text and the
continuation `k` accepts what is left.  `eq a b` tells whether the pattern
character `a` matches the text character `b`. -/
def matchAtoms (eq : Char → Char → Bool) (k : List Char → Bool) :
    List Atom → List Char → Bool
  | [], s => k s
  | _ :: _, [] => false
  | .lit c :: rest, x :: s => eq c x && matchAtoms eq k rest s
  | .cls p :: rest, x :: s => p x && matchAtoms eq k rest s
  | .plus p :: rest, x :: s =>
    p x && (matchAtoms eq k (.plus p :: rest) s || matchAtoms eq k rest s)

/-- A pattern anchored with `^` and `$` must match the whole text. -/
def testAnchored (atoms : List Atom) (s : List Char) : Bool :=
  matchAtoms (fun a b => a == b) (fun r => r.isEmpty) atoms s

/-- An unanchored pattern matches when it matches at some position of the text. -/
def searchAtoms (eq : Char → Char → Bool) (atoms : List Atom) : List Char → Bool
  | [] => matchAtoms eq (fun _ => true) atoms []
  | x :: s => matchAtoms eq (fun _ => true) atoms (x :: s) || searchAtoms eq atoms s

/-! ## Validation layer -/

/-- The class `[^\s@]`. -/
def notSpaceAt (c : Char) : Bool := !(isWhiteSpace c || c == '@')

/-- The pattern `/^[^\s@]+@[^\s@]+\.[^\s@]+$/`. -/
def emailRegex : List Atom :=
  [.plus notSpaceAt, .lit '@', .plus notSpaceAt, .lit '.', .plus notSpaceAt]

/-- The answer of the error-handling middleware, which Express runs when a
middleware throws. -/
def internalServerError : Response := ⟨500, .message "Internal server error"⟩

/-- Body of `POST /auth/register`. -/
structure RegisterBody where
  firstName : JsValue
  lastName : JsValue
  email : JsValue
  password : JsValue
  deriving DecidableEq, Repr

/-- A registration body that passed validation: both names are strings, on
which `trim` was called. -/
structure Registration where
  firstName : String
  lastName : String
  email : JsValue
  password : JsValue
  deriving DecidableEq, Repr

/-- Model of `validateRegistration`.  Calling `trim` on a truthy value that is
not a string throws, as does a conversion that throws; Express then answers
through the error-handling middleware. -/
def validateRegistration (rt : Runtime) (body : RegisterBody) : Outcome Registration :=
  if !truthy body.firstName || !truthy body.lastName || !truthy body.email
      || !truthy body.password then
    .respond ⟨400, .message "All fields are required"⟩
  else
    match body.firstName with
    | .str firstName =>
      if jsLength (trim firstName.data) < 2 then
        .respond ⟨400, .message "First name must be at least 2 characters"⟩
      else
        match body.lastName with
        | .str lastName =>
          if jsLength (trim lastName.data) < 2 then
            .respond ⟨400, .message "Last name must be at least 2 characters"⟩
          else
            match body.email.toText rt with
            | none => .respond internalServerError
            | some emailText =>
              if !testAnchored emailRegex emailText then
                .respond ⟨400, .message "Please provide a valid email address"⟩
              else
                match (body.password.length rt).toNumber rt with
                | none => .respond internalServerError
                | some len =>
                  if len.lt (.fin 6 0) then
                    .respond ⟨400, .message "Password must be at least 6 characters"⟩
                  else
                    .next ⟨firstName, lastName, body.email, body.password⟩
        | _ => .respond internalServerError
    | _ => .respond internalServerError

/-- Body of `POST /auth/login`. -/
structure LoginBody where
  email : JsValue
  password : JsValue
  deriving DecidableEq, Repr

/-- Model of `validateLogin`. -/
def validateLogin (body : LoginBody) : Outcome LoginBody :=
  if !truthy body.email || !truthy body.password then
    .respond ⟨400, .message "Email and password are required"⟩
  else .next body

/-! ## Authentication routes -/

/-- The store call `findOne` on `Users` with a filter on `email`. -/
def findUserByEmail (us : List User) (email : String) : Option User :=
  us.find? (fun u => u.email == email)

/-- The handler of `POST /auth/register`, after `validateRegistration`.
Against an email that is not a string `toLowerCase` throws before the lookup,
and `bcrypt.hash` rejects a password that is not a string; the handler's
`catch` answers both. -/
def register (rt : Runtime) (s : Store) (r : Registration) : Result :=
  match r.email with
  | .str e =>
    let email := String.mk (toLowerCase rt e.data)
    match findUserByEmail s.Users email with
    | some _ => ⟨⟨400, .message "Email already registered"⟩, s, [.findOne "Users"]⟩
    | none =>
      match r.password with
      | .str password =>
        let hashedPassword := rt.bcryptHash password
        let firstName := String.mk (trim r.firstName.data)
        let lastName := String.mk (trim r.lastName.data)
        let user : User :=
          { _id := rt.insertedId, firstName := firstName, lastName := lastName,
            email := email, password := hashedPassword, createdAt := rt.now,
            updatedAt := rt.now, lastLogin := none }
        let token := rt.jwtSign ⟨rt.objectIdHex rt.insertedId, email, firstName, lastName⟩
        ⟨⟨201, .auth "User registered successfully" token
            ⟨rt.insertedId, firstName, lastName, email⟩⟩,
          { s with Users := s.Users ++ [user] },
          [.findOne "Users", .insertOne "Users"]⟩
      | _ => ⟨⟨500, .message "Registration failed"⟩, s, [.findOne "Users"]⟩
  | _ => ⟨⟨500, .message "Registration failed"⟩, s, []⟩

/-- The route `POST /auth/register`. -/
def postRegister (rt : Runtime) (s : Store) (body : RegisterBody) : Result :=
  match validateRegistration rt body with
  | .respond res => ⟨res, s, []⟩
  | .next r => register rt s r

/-- The store call `updateOne` on `Users` with a filter on `_id` and a `$set`
of `lastLogin`. -/
def setLastLogin (id : ObjectId) (t : Nat) : List User → List User
  | [] => []
  | u :: us =>
    if u._id == id then { u with lastLogin := some t } :: us
    else u :: setLastLogin id t us

/-- The handler of `POST /auth/login`, after `validateLogin`.  Against an
email that is not a string `toLowerCase` throws before the lookup; once a
user is found, `bcrypt.compare` rejects a password that is not a string; the
handler's `catch` answers both. -/
def login (rt : Runtime) (s : Store) (c : LoginBody) : Result :=
  match c.email with
  | .str e =>
    match findUserByEmail s.Users (String.mk (toLowerCase rt e.data)) with
    | none => ⟨⟨400, .message "Invalid email or password"⟩, s, [.findOne "Users"]⟩
    | some user =>
      match c.password with
      | .str password =>
        if !rt.bcryptCompare password user.password then
          ⟨⟨400, .message "Invalid email or password"⟩, s, [.findOne "Users"]⟩
        else
          let token :=
            rt.jwtSign ⟨rt.objectIdHex user._id, user.email, user.firstName, user.lastName⟩
          ⟨⟨200, .auth "Login successful" token
              ⟨user._id, user.firstName, user.lastName, user.email⟩⟩,
            { s with Users := setLastLogin user._id rt.now s.Users },
            [.findOne "Users", .updateOne "Users"]⟩
      | _ => ⟨⟨500, .message "Login failed"⟩, s, [.findOne "Users"]⟩
  | _ => ⟨⟨500, .message "Login failed"⟩, s, []⟩

/-- The route `POST /auth/login`. -/
def postLogin (rt : Runtime) (s : Store) (body : LoginBody) : Result :=
  match validateLogin body with
  | .respond res => ⟨res, s, []⟩
  | .next c => login rt s c

/-! ## Product routes -/

/-- The store call `findOne` on `Products` with a filter on `id`: the first
document whose `id` equals the number, none for `NaN`. -/
def findProductById (ps : List Product) (n : Option Int) : Option Product :=
  match n with
  | none => none
  | some k => ps.find? (fun p => p.id == k)

/-- The store call `updateOne` on `Products` with a filter on `id` and an
`$inc` of `AvailableInventory`: the first document whose `id` is `k` has `d`
added to its inventory, in the arithmetic of doubles. -/
def incInventory (k : Int) (d : JsNumber) : List Product → List Product
  | [] => []
  | p :: ps =>
    if p.id == k then { p with AvailableInventory := p.AvailableInventory.add d } :: ps
    else p :: incInventory k d ps

/-- The handler of `GET /collection/Products`. -/
def getProducts (s : Store) : Result :=
  ⟨⟨200, .products s.Products⟩, s, [.find "Products"]⟩

/-- The test `!q || q.trim().length === 0`, also used by the chatbot. -/
def blank (x : Option String) : Bool :=
  match x with
  | none => true
  | some v => v.data.isEmpty || jsLength (trim v.data) == 0

/-- Characters with a meaning in regular expression syntax, and the NUL
character, which the wire format of a pattern cannot carry. -/
def isSyntaxChar (c : Char) : Bool :=
  c == '^' || c == '$' || c == '\\' || c == '.' || c == '*' || c == '+' || c == '?' ||
  c == '(' || c == ')' || c == '[' || c == ']' || c == '{' || c == '}' || c == '|' ||
  c.toNat == 0

/-- Whether a pattern lies in the modelled fragment: every character is `.`
or has no meaning in regular expression syntax. -/
def inFragment (q : List Char) : Bool :=
  q.all (fun c => c == '.' || !isSyntaxChar c)

/-- Line terminators, which `.` does not match. -/
def isLineTerminator (c : Char) : Bool :=
  c.toNat == 0x0A || c.toNat == 0x0D || c.toNat == 0x2028 || c.toNat == 0x2029

/-- Atoms of a pattern of the modelled fragment. -/
def patternAtoms (q : List Char) : List Atom :=
  q.map (fun c => if c == '.' then Atom.cls (fun x => !isLineTerminator x) else Atom.lit c)

/-- Whether case-insensitive matching lets the pattern character `a` match
the text character `b`: every character matches itself, two ASCII characters
match when they are the same letter in either case, and any other pair is
left to the runtime. -/
def caseEq (rt : Runtime) (a b : Char) : Bool :=
  a == b ||
    (if a.toNat < 128 && b.toNat < 128 then asciiLower a == asciiLower b
     else rt.unicodeCaseEq a b)

/-- The matcher that `new RegExp(q, 'i')` denotes when used as a filter value:
`none` when the pattern is rejected.  A pattern made of plain characters and
`.` is matched by `searchAtoms`; any other pattern is left to the runtime. -/
def searchRegex (rt : Runtime) (q : List Char) : Option (List Char → Bool) :=
  if inFragment q then some (searchAtoms (caseEq rt) (patternAtoms q))
  else rt.regExpOther q

/-- The handler of `GET /collection/Products/search`. -/
def searchProducts (rt : Runtime) (s : Store) (q : Option String) : Result :=
  match q with
  | none => ⟨⟨400, .message "Search query is required"⟩, s, []⟩
  | some qs =>
    if blank (some qs) then ⟨⟨400, .message "Search query is required"⟩, s, []⟩
    else
      match searchRegex rt qs.data with
      | none => ⟨⟨500, .message "Search failed"⟩, s, []⟩
      | some re =>
        ⟨⟨200, .products (s.Products.filter (fun p =>
            re p.title.data || re p.author.data || re p.genre.data || re p.description.data))⟩,
          s, [.find "Products"]⟩

/-- The handler of `GET /collection/Products/:id`. -/
def getProductById (rt : Runtime) (s : Store) (id : String) : Result :=
  match findProductById s.Products (parseInt id.data) with
  | some product => ⟨⟨200, .product product⟩, s, [.findOne "Products"]⟩
  | none =>
    match rt.objectId id with
    | none => ⟨⟨404, .message "Product not found"⟩, s, [.findOne "Products"]⟩
    | some oid =>
      match s.Products.find? (fun p => p._id == oid) with
      | some product =>
        ⟨⟨200, .product product⟩, s, [.findOne "Products", .findOne "Products"]⟩
      | none =>
        ⟨⟨404, .message "Product not found"⟩, s, [.findOne "Products", .findOne "Products"]⟩

/-! ## Cart -/

/-- Body of `POST /cart/add`: `productId` is the text `parseInt` sees (the
string form of the field, `"undefined"` when it is absent) and `quantity` the
value of the field, of any type, `undefined` when it is omitted. -/
structure CartBody where
  productId : String
  quantity : JsValue
  deriving DecidableEq, Repr

/-- The default `quantity = 1` of the destructuring: it applies to
`undefined` only. -/
def quantityOrDefault (quantity : JsValue) : JsValue :=
  if quantity = .undefined then .num (.fin 1 0) else quantity

/-- The handler of `POST /cart/add`, after `verifyToken`.  Once a product is
found, the number `parseInt(productId)` is the `id` of that product, which is
what the cart item and the filter of the inventory update carry.  The
comparison and the unary minus convert the quantity to a Number; the cart
item keeps the value as it came.  The constructor `new ObjectId(userId)` is
evaluated when the cart item is built, after both checks; when it or the
conversion throws, the handler answers 500 before any write. -/
def cartAdd (rt : Runtime) (s : Store) (body : CartBody) (user : Identity) : Result :=
  let quantity := quantityOrDefault body.quantity
  let userId := user.id
  match findProductById s.Products (parseInt body.productId.data) with
  | none => ⟨⟨404, .message "Product not found"⟩, s, [.findOne "Products"]⟩
  | some product =>
    match quantity.toNumber rt with
    | none => ⟨⟨500, .message "Failed to add to cart"⟩, s, [.findOne "Products"]⟩
    | some q =>
      if product.AvailableInventory.lt q then
        ⟨⟨400, .message "Insufficient inventory"⟩, s, [.findOne "Products"]⟩
      else
        match rt.objectId userId with
        | none => ⟨⟨500, .message "Failed to add to cart"⟩, s, [.findOne "Products"]⟩
        | some uid =>
          let cartItem : CartItem :=
            { userId := uid, productId := product.id, quantity := quantity,
              addedAt := rt.now }
          ⟨⟨200, .message "Product added to cart successfully"⟩,
            { s with Cart := s.Cart ++ [cartItem],
                     Products := incInventory product.id q.neg s.Products },
            [.findOne "Products", .insertOne "Cart", .updateOne "Products"]⟩

/-- The route `POST /cart/add`. -/
def postCartAdd (rt : Runtime) (s : Store) (authorization : Option String)
    (body : CartBody) : Result :=
  protect rt authorization s (cartAdd rt s body)

/-! ## Chatbot -/

/-- The `responses` mapping, in insertion order, which is the order `for ... in`
visits its keys. -/
def responses : List (String × String) :=
  [("hello", "Hello! Welcome to RapidReads! How can I help you find your next great book today?"),
   ("hi", "Hi there! I'm here to help you with anything related to our bookstore. What can I do for you?"),
   ("books", "We have an amazing collection of books across many genres including Fantasy, Fiction, Classics, Self-help, and more! What type of book interests you?"),
   ("genres", "Our books cover many genres: Fantasy, Historical, Fiction, Self-help, Philosophical, Adventure, Classic, Commentary, Literature, and Political fiction."),
   ("price", "Our books are competitively priced, ranging from 34 AED to 95 AED. You can sort by price on our products page to find books within your budget!"),
   ("shipping", "We offer fast delivery across the UAE, usually within 2-3 business days. Orders are processed quickly and shipped with care."),
   ("delivery", "We provide reliable delivery services throughout the UAE. Most orders arrive within 2-3 business days."),
   ("help", "I can help you with: finding books, information about genres, pricing details, shipping info, account questions, and general bookstore inquiries!"),
   ("account", "For account-related questions, you can register or login on our site. If you have specific account issues, please contact our support team."),
   ("authors", "We feature books from renowned authors like J.K. Rowling, Harper Lee, James Clear, Paulo Coelho, and many more classic and contemporary writers."),
   ("bestseller", "Some of our popular books include Harry Potter series, To Kill a Mockingbird, Atomic Habits, and The Alchemist. Check out our full collection!"),
   ("recommend", "I'd be happy to recommend books! What genre do you enjoy? Are you looking for fiction, self-help, classics, or something else?"),
   ("search", "You can search for books by title, author, or genre using the search bar on our products page. Try searching for your favorite author or genre!"),
   ("inventory", "We keep our inventory updated in real-time. If a book shows as available on the product page, it's ready to ship!"),
   ("contact", "You can reach our support team at support@rapidread.com or call +971-555-123456 for any assistance."),
   ("thanks", "You're very welcome! I'm glad I could help. Happy reading, and enjoy your books from RapidReads!"),
   ("bye", "Goodbye! Thanks for visiting RapidReads. Come back anytime for more great books. Happy reading!")]

/-- The initial value of `response`. -/
def defaultResponse : String :=
  "I'm here to help! You can ask me about our books, prices, shipping, or anything else about RapidReads."

/-- The sentence used when the count query throws. -/
def fallbackResponse : String :=
  "We have a great selection of books available! Browse our products page to see our full collection."

/-- The sentence built from the product count. -/
def countResponse (productCount : Nat) : String :=
  "We currently have " ++ toString productCount ++
    " books available in our collection across various genres!"

/-- The keyword loop: the response of the first keyword of the mapping that
the lower-cased message includes, or the value `response` had before. -/
def keywordLoop (lowerMessage : List Char) (response : String) :
    List (String × String) → String
  | [] => response
  | (keyword, text) :: rest =>
    if includes lowerMessage keyword.data then text
    else keywordLoop lowerMessage response rest

/-- The handler of `POST /chatbot/respond`.  `countOk` tells whether the
store answers the `countDocuments` call, should the handler make it. -/
def chatbotRespond (rt : Runtime) (s : Store) (countOk : Bool) (message : Option String) :
    Result :=
  match message with
  | none => ⟨⟨400, .message "Message is required"⟩, s, []⟩
  | some m =>
    if blank (some m) then ⟨⟨400, .message "Message is required"⟩, s, []⟩
    else
      let lowerMessage := toLowerCase rt m.data
      let response := keywordLoop lowerMessage defaultResponse responses
      if includes lowerMessage "how many".data || includes lowerMessage "count".data then
        if countOk then
          ⟨⟨200, .reply (countResponse s.Products.length)⟩, s, [.countDocuments "Products"]⟩
        else
          ⟨⟨200, .reply fallbackResponse⟩, s, [.countDocuments "Products"]⟩
      else ⟨⟨200, .reply response⟩, s, []⟩

/-! ## Admin -/

/-- The handler of `GET /admin/stats`, after `verifyToken`. -/
def adminStats (s : Store) (_user : Identity) : Result :=
  ⟨⟨200, .stats s.Users.length s.Products.length "Running"⟩, s,
    [.countDocuments "Users", .countDocuments "Products"]⟩

/-- The route `GET /admin/stats`. -/
def getAdminStats (rt : Runtime) (s : Store) (authorization : Option String) : Result :=
  protect rt authorization s (adminStats s)

/-! ## Properties in the words of the specification -/

/-- The spec's words for the form of an email, `local@domain.tld`: no white
space, exactly one `@`, a local part that is not empty, and a domain holding a
`.` with at least one character before it and after it. -/
def EmailForm (e : List Char) : Prop :=
  (∀ c ∈ e, isWhiteSpace c = false) ∧ e.count '@' = 1 ∧
  ∃ loc dom, e = loc ++ '@' :: dom ∧ loc ≠ [] ∧
    ∃ u v, dom = u ++ '.' :: v ∧ u ≠ [] ∧ v ≠ []

/-- A field that is a string or is falsy (absent, `null`, `false`, zero). -/
def stringOrFalsy (v : JsValue) : Prop := truthy v = false ∨ ∃ s, v = .str s

/-- A registration payload whose four fields are strings or falsy. -/
def StringFields (body : RegisterBody) : Prop :=
  stringOrFalsy body.firstName ∧ stringOrFalsy body.lastName ∧
    stringOrFalsy body.email ∧ stringOrFalsy body.password

/-- The spec's words for a registration payload that passes validation: the
four fields present and not empty, both names of at least 2 characters after
trimming, an email of the form `local@domain.tld`, a password of at least 6
characters.  Characters are counted as `length` counts them. -/
def ValidRegistration (body : RegisterBody) : Prop :=
  ∃ f l e p, body = ⟨.str f, .str l, .str e, .str p⟩ ∧
    f.data ≠ [] ∧ l.data ≠ [] ∧ e.data ≠ [] ∧ p.data ≠ [] ∧
    2 ≤ jsLength (trim f.data) ∧ 2 ≤ jsLength (trim l.data) ∧
    EmailForm e.data ∧ 6 ≤ jsLength p.data

/-- The spec's words "integer literal": an optional sign followed by one or
more decimal digits and nothing else; the value is the integer it denotes,
`none` for any other string. -/
def integerLiteral (s : List Char) : Option Int :=
  let neg := s.head? == some '-'
  let ds := if s.head? == some '-' || s.head? == some '+' then s.tail else s
  if !ds.isEmpty && ds.all isDecimalDigit then
    some (if neg then - (decimalValue ds : Int) else (decimalValue ds : Int))
  else none

/-- What is left of a text after leading white space and one sign. -/
def afterSign (s : List Char) : List Char :=
  let t := s.dropWhile isWhiteSpace
  if t.head? == some '-' || t.head? == some '+' then t.tail else t

/-- The spec's word "non-numeric", read as: after leading white space and a
sign the text does not start with a decimal digit. -/
def nonNumeric (s : List Char) : Bool :=
  match (afterSign s).head? with
  | none => true
  | some c => !isDecimalDigit c

/-- Test whether the text starts with the word `q`, comparing each character
of `q` with the character of the text at its place by `eq`. -/
def startsWithBy (eq : Char → Char → Bool) : List Char → List Char → Bool
  | _, [] => true
  | [], _ :: _ => false
  | x :: s, c :: q => eq c x && startsWithBy eq s q

/-- The spec's words "contains `q` as a substring, compared
case-insensitively": `q` occurs at some position of the text, characters
being compared by the case-insensitive comparison `eq`. -/
def includesBy (eq : Char → Char → Bool) : List Char → List Char → Bool
  | [], q => startsWithBy eq [] q
  | x :: s, q => startsWithBy eq (x :: s) q || includesBy eq s q

/-- Whether the character `c` of a query read as a pattern matches the text
character `x`: a `.` matches any character but a line terminator, any other
character matches case-insensitively. -/
def patternCharMatches (rt : Runtime) (c x : Char) : Bool :=
  if c == '.' then !isLineTerminator x else caseEq rt c x

/-- The spec's words for a record that matches a search: its title, author,
genre or description contains the query, compared case-insensitively. -/
def recordContains (eq : Char → Char → Bool) (q : List Char) (p : Product) : Bool :=
  includesBy eq p.title.data q || includesBy eq p.author.data q ||
    includesBy eq p.genre.data q || includesBy eq p.description.data q

/-- The plain reading of "contains the query, compared case-insensitively"
on ASCII text: a field, lower-cased, includes the lower-cased query. -/
def recordContainsLower (q : List Char) (p : Product) : Bool :=
  includes (p.title.data.map asciiLower) (q.map asciiLower) ||
    includes (p.author.data.map asciiLower) (q.map asciiLower) ||
    includes (p.genre.data.map asciiLower) (q.map asciiLower) ||
    includes (p.description.data.map asciiLower) (q.map asciiLower)

/-- A text of ASCII characters only. -/
def asciiText (s : List Char) : Prop := ∀ c ∈ s, c.toNat < 128

/-! ## Sample data -/

/-- A runtime for worked examples: the token `"good"` verifies to a user whose
identifier is `a1`, no pair with a character outside ASCII matches under case
folding, no pattern outside the modelled fragment compiles, a string that is
not an integer converts to `NaN`, and every array or object converts to the
text of a plain object and has no `length`. -/
def sampleRuntime : Runtime :=
  { jwtVerify := fun t => if t == "good" then some ⟨"a1", "ann@example.com", "Ann", "Lee"⟩ else none,
    jwtSign := fun i => "token:" ++ i.id,
    bcryptHash := fun p => "hash:" ++ p,
    bcryptCompare := fun p h => h == "hash:" ++ p,
    objectId := fun t => if t == "a1" then some 161 else none,
    objectIdHex := fun _ => "a1",
    insertedId := 161,
    now := 0,
    unicodeLower := fun t => t,
    unicodeCaseEq := fun _ _ => false,
    regExpOther := fun _ => none,
    stringToNumberOther := fun _ => .nan,
    numberToString := fun _ => "0".data,
    toPrimitive := fun _ => some "[object Object]".data,
    lengthOf := fun _ => .undefined }

/-- The identity the sample token carries. -/
def sampleUser : Identity := ⟨"a1", "ann@example.com", "Ann", "Lee"⟩

/-- Entry 205 of the sample products listed in the source. -/
def atomicHabits : Product :=
  { _id := 5, id := 205, title := "Atomic Habits", author := "James Clear",
    genre := "Self help", price := 66, image := "book5.jpg",
    AvailableInventory := .fin 10 0,
    description := "James Clear presents a comprehensive guide to building good habits and breaking bad ones." }

/-- Entry 206 of the sample products listed in the source. -/
def theAlchemist : Product :=
  { _id := 6, id := 206, title := "The Alchemist", author := "Paulo Coelho",
    genre := "Philosophical", price := 53, image := "book6.jpg",
    AvailableInventory := .fin 10 0,
    description := "Paulo Coelho's philosophical novel follows Santiago, a young shepherd, on his journey to find treasure." }

/-- A store seeded with the two sample products. -/
def sampleStore : Store := ⟨[], [atomicHabits, theAlchemist], []⟩

/-! ## Lemmas on store calls -/

theorem findProductById_some {ps : List Product} {n : Option Int} {p : Product}
    (h : findProductById ps n = some p) : n = some p.id ∧ p ∈ ps := by
  cases n with
  | none => simp [findProductById] at h
  | some k =>
    simp only [findProductById] at h
    have h1 := List.find?_some h
    have h2 := List.mem_of_find?_eq_some h
    simp at h1
    exact ⟨by rw [h1], h2⟩

theorem findProductById_none {ps : List Product} {n : Option Int} :
    findProductById ps n = none ↔ ∀ p ∈ ps, n ≠ some p.id := by
  cases n with
  | none => simp [findProductById]
  | some k =>
    simp only [findProductById, List.find?_eq_none]
    constructor
    · intro h p hp hk
      apply h p hp
      simp at hk
      simp [hk]
    · intro h p hp hk
      simp at hk
      exact h p hp (by rw [hk])

theorem incInventory_split (k : Int) (d : JsNumber) :
    ∀ (ps : List Product) (p : Product), ps.find? (fun x => x.id == k) = some p →
      ∃ pre post, ps = pre ++ p :: post ∧ (∀ x ∈ pre, x.id ≠ k) ∧
        incInventory k d ps =
          pre ++ { p with AvailableInventory := p.AvailableInventory.add d } :: post := by
  intro ps
  induction ps with
  | nil => intro p h; simp at h
  | cons a as ih =>
    intro p h
    by_cases ha : a.id = k
    · have hp : a = p := by simpa [List.find?_cons, ha] using h
      subst hp
      exact ⟨[], as, rfl, by simp, by simp [incInventory, ha]⟩
    · have h2 : as.find? (fun x => x.id == k) = some p := by
        simpa [List.find?_cons, ha] using h
      obtain ⟨pre, post, e1, e2, e3⟩ := ih p h2
      refine ⟨a :: pre, post, by simp [e1], ?_, ?_⟩
      · intro x hx
        rcases List.mem_cons.mp hx with rfl | hx
        · exact ha
        · exact e2 x hx
      · simp [incInventory, ha, e3]

/-! ## Numbers -/

theorem JsNumber.lt_int (a b : Int) :
    (JsNumber.fin a 0).lt (.fin b 0) = decide (a < b) := by
  simp [JsNumber.lt]

/-- On integers whose difference is at most `2 ^ 53` in magnitude the
subtraction of doubles is exact. -/
theorem JsNumber.add_neg_int (n q : Int) (h : (n - q).natAbs ≤ 2 ^ 53) :
    (JsNumber.fin n 0).add (JsNumber.fin q 0).neg = .fin (n - q) 0 := by
  have e : n * 2 ^ (max 0 0 - 0) + -q * 2 ^ (max 0 0 - 0) = n - q := by
    simp
    ring
  simp only [JsNumber.neg, JsNumber.add, e]
  unfold roundDyadic
  rw [if_pos ⟨Nat.max_self 0, h⟩]

/-! ## Cart -/

/-- The successful path of add-to-cart, in terms of the store calls. -/
theorem cartAdd_success (rt : Runtime) (s : Store) (body : CartBody) (user : Identity)
    (p : Product) (q : JsNumber) (uid : ObjectId)
    (hp : findProductById s.Products (parseInt body.productId.data) = some p)
    (hq : (quantityOrDefault body.quantity).toNumber rt = some q)
    (hle : p.AvailableInventory.lt q = false)
    (huid : rt.objectId user.id = some uid) :
    (cartAdd rt s body user).response = ⟨200, .message "Product added to cart successfully"⟩ ∧
    (cartAdd rt s body user).store.Cart =
      s.Cart ++ [⟨uid, p.id, quantityOrDefault body.quantity, rt.now⟩] ∧
    (cartAdd rt s body user).store.Users = s.Users ∧
    ∃ pre post, s.Products = pre ++ p :: post ∧ (∀ x ∈ pre, x.id ≠ p.id) ∧
      (cartAdd rt s body user).store.Products =
        pre ++ { p with AvailableInventory := p.AvailableInventory.add q.neg } :: post := by
  have hfind : s.Products.find? (fun x => x.id == p.id) = some p := by
    have h1 := (findProductById_some hp).1
    rw [h1] at hp
    simpa [findProductById] using hp
  obtain ⟨pre, post, e1, e2, e3⟩ := incInventory_split p.id q.neg s.Products p hfind
  refine ⟨by simp [cartAdd, hp, hq, hle, huid], by simp [cartAdd, hp, hq, hle, huid],
    by simp [cartAdd, hp, hq, hle, huid], pre, post, e1, e2, ?_⟩
  simp only [cartAdd, hp, hq, hle, huid, Bool.false_eq_true, if_false]
  rw [e3]

/-- C1, counterexample. Product 205 with inventory 11 and the integer
quantity `-2 ^ 53`: the request is accepted, and the inventory becomes
9007199254741004, the double nearest to 11 + 2 ^ 53, not 9007199254741003.
Product 205 with inventory 10 and quantity 3, for a token whose user id is
not a store identifier: the answer is 500 and no cart record is added. -/
theorem cartAdd_inexact_or_refused :
    (cartAdd sampleRuntime
        { sampleStore with
          Products := [{ atomicHabits with AvailableInventory := .fin 11 0 }, theAlchemist] }
        ⟨"205", .num (.fin (-(2 ^ 53)) 0)⟩ sampleUser).store.Products =
      [{ atomicHabits with AvailableInventory := .fin 9007199254741004 0 }, theAlchemist] ∧
    (11 : Int) - (-(2 ^ 53)) = 9007199254741003 ∧
    (cartAdd sampleRuntime sampleStore ⟨"205", .num (.fin 3 0)⟩
        ⟨"not-an-id", "ann@example.com", "Ann", "Lee"⟩).response =
      ⟨500, .message "Failed to add to cart"⟩ ∧
    (cartAdd sampleRuntime sampleStore ⟨"205", .num (.fin 3 0)⟩
        ⟨"not-an-id", "ann@example.com", "Ann", "Lee"⟩).store = sampleStore ∧
    ¬ (∀ (rt : Runtime) (s : Store) (body : CartBody) (user : Identity) (p : Product)
        (n q : Int),
        findProductById s.Products (parseInt body.productId.data) = some p →
        p.AvailableInventory = .fin n 0 →
        quantityOrDefault body.quantity = .num (.fin q 0) → q ≤ n →
        (cartAdd rt s body user).store.Cart.length = s.Cart.length + 1) ∧
    ¬ (∀ (rt : Runtime) (s : Store) (body : CartBody) (user : Identity) (p : Product)
        (n q : Int) (uid : ObjectId),
        findProductById s.Products (parseInt body.productId.data) = some p →
        p.AvailableInventory = .fin n 0 →
        quantityOrDefault body.quantity = .num (.fin q 0) → q ≤ n →
        rt.objectId user.id = some uid →
        ∀ x ∈ (cartAdd rt s body user).store.Products,
          x.id = p.id → x.AvailableInventory = .fin (n - q) 0) := by
  refine ⟨by decide, by decide, by decide, by decide, ?_, ?_⟩
  · intro h
    have h1 := h sampleRuntime sampleStore ⟨"205", .num (.fin 3 0)⟩
      ⟨"not-an-id", "ann@example.com", "Ann", "Lee"⟩ atomicHabits 10 3
      (by decide) (by decide) (by decide) (by decide)
    exact absurd h1 (by decide)
  · intro h
    have h1 := h sampleRuntime
      { sampleStore with
        Products := [{ atomicHabits with AvailableInventory := .fin 11 0 }, theAlchemist] }
      ⟨"205", .num (.fin (-(2 ^ 53)) 0)⟩ sampleUser
      { atomicHabits with AvailableInventory := .fin 11 0 } 11 (-(2 ^ 53)) 161
      (by decide) (by decide) (by decide) (by decide) (by decide)
      { atomicHabits with AvailableInventory := .fin 9007199254741004 0 }
      (by decide) (by decide)
    exact absurd h1 (by decide)

/-- C1, amended. Add-to-cart on an explicit store state.  When the product id
of the request denotes an existing product `p` (the first one with that
legacy id) with integer inventory `n`, and `q` is the integer quantity of the
request (1 when omitted): if `q > n` the response is 400 "Insufficient
inventory" and the store is unchanged.  If `q ≤ n` and the user id of the
token is a store identifier, exactly one cart record (user, product, q) is
appended, users are untouched and the products are the old ones with `p`
replaced by `p` with inventory `n - q`, provided `n - q` is at most `2 ^ 53`
in magnitude, so that the arithmetic of doubles is exact.  If `q ≤ n` and the
user id of the token is not a store identifier, the response is 500 and the
store is unchanged.  When no product has that legacy id the response is 404
and the store is unchanged. -/
theorem cartAdd_contract (rt : Runtime) (s : Store) (body : CartBody) (user : Identity) :
    (∀ (p : Product) (n q : Int),
      findProductById s.Products (parseInt body.productId.data) = some p →
      p.AvailableInventory = .fin n 0 →
      quantityOrDefault body.quantity = .num (.fin q 0) →
      (n < q →
        (cartAdd rt s body user).response = ⟨400, .message "Insufficient inventory"⟩ ∧
        (cartAdd rt s body user).store = s) ∧
      (q ≤ n → (n - q).natAbs ≤ 2 ^ 53 →
        ∀ uid, rt.objectId user.id = some uid →
          (cartAdd rt s body user).response =
            ⟨200, .message "Product added to cart successfully"⟩ ∧
          (cartAdd rt s body user).store.Cart =
            s.Cart ++ [⟨uid, p.id, .num (.fin q 0), rt.now⟩] ∧
          (cartAdd rt s body user).store.Users = s.Users ∧
          ∃ pre post, s.Products = pre ++ p :: post ∧ (∀ x ∈ pre, x.id ≠ p.id) ∧
            (cartAdd rt s body user).store.Products =
              pre ++ { p with AvailableInventory := .fin (n - q) 0 } :: post) ∧
      (q ≤ n → rt.objectId user.id = none →
        (cartAdd rt s body user).response = ⟨500, .message "Failed to add to cart"⟩ ∧
        (cartAdd rt s body user).store = s)) ∧
    ((∀ p ∈ s.Products, parseInt body.productId.data ≠ some p.id) →
      (cartAdd rt s body user).response = ⟨404, .message "Product not found"⟩ ∧
      (cartAdd rt s body user).store = s) ∧
    quantityOrDefault .undefined = .num (.fin 1 0) := by
  refine ⟨?_, ?_, rfl⟩
  · intro p n q hp hn hq
    have hnum : (quantityOrDefault body.quantity).toNumber rt = some (.fin q 0) := by
      rw [hq]
      rfl
    refine ⟨?_, ?_, ?_⟩
    · intro hlt
      have hl : p.AvailableInventory.lt (.fin q 0) = true := by
        rw [hn, JsNumber.lt_int]
        simpa using hlt
      simp [cartAdd, hp, hnum, hl]
    · intro hle hexact uid huid
      have hl : p.AvailableInventory.lt (.fin q 0) = false := by
        rw [hn, JsNumber.lt_int]
        simpa using hle
      have h := cartAdd_success rt s body user p (.fin q 0) uid hp hnum hl huid
      rw [hq, hn, JsNumber.add_neg_int n q hexact] at h
      exact h
    · intro hle huid
      have hl : p.AvailableInventory.lt (.fin q 0) = false := by
        rw [hn, JsNumber.lt_int]
        simpa using hle
      simp [cartAdd, hp, hnum, hl, huid]
  · intro hnone
    have h := findProductById_none.mpr hnone
    simp [cartAdd, h]

/-- C1, worked cases on the sample store: 3 copies of product 205 (inventory
10) are added for the sample user; 11 copies are refused; with the quantity
omitted and a token whose user id is not a store identifier the answer is
500; product 999 is not found. -/
theorem cartAdd_contract_witness :
    ((cartAdd sampleRuntime sampleStore ⟨"205", .num (.fin 3 0)⟩ sampleUser).response =
        ⟨200, .message "Product added to cart successfully"⟩ ∧
      (cartAdd sampleRuntime sampleStore ⟨"205", .num (.fin 3 0)⟩ sampleUser).store.Cart =
        [] ++ [⟨161, 205, .num (.fin 3 0), 0⟩] ∧
      (cartAdd sampleRuntime sampleStore ⟨"205", .num (.fin 3 0)⟩ sampleUser).store.Users =
        [] ∧
      ∃ pre post, sampleStore.Products = pre ++ atomicHabits :: post ∧
        (∀ x ∈ pre, x.id ≠ 205) ∧
        (cartAdd sampleRuntime sampleStore ⟨"205", .num (.fin 3 0)⟩
            sampleUser).store.Products =
          pre ++ { atomicHabits with AvailableInventory := .fin (10 - 3) 0 } :: post) ∧
    ((cartAdd sampleRuntime sampleStore ⟨"205", .num (.fin 11 0)⟩ sampleUser).response =
        ⟨400, .message "Insufficient inventory"⟩ ∧
      (cartAdd sampleRuntime sampleStore ⟨"205", .num (.fin 11 0)⟩ sampleUser).store =
        sampleStore) ∧
    ((cartAdd sampleRuntime sampleStore ⟨"205", .undefined⟩
          ⟨"not-an-id", "ann@example.com", "Ann", "Lee"⟩).response =
        ⟨500, .message "Failed to add to cart"⟩ ∧
      (cartAdd sampleRuntime sampleStore ⟨"205", .undefined⟩
          ⟨"not-an-id", "ann@example.com", "Ann", "Lee"⟩).store = sampleStore) ∧
    ((cartAdd sampleRuntime sampleStore ⟨"999", .undefined⟩ sampleUser).response =
        ⟨404, .message "Product not found"⟩ ∧
      (cartAdd sampleRuntime sampleStore ⟨"999", .undefined⟩ sampleUser).store =
        sampleStore) :=
  ⟨((cartAdd_contract sampleRuntime sampleStore ⟨"205", .num (.fin 3 0)⟩ sampleUser).1
      atomicHabits 10 3 (by decide) (by decide) (by decide)).2.1 (by decide) (by decide) 161
      (by decide),
   ((cartAdd_contract sampleRuntime sampleStore ⟨"205", .num (.fin 11 0)⟩ sampleUser).1
      atomicHabits 10 11 (by decide) (by decide) (by decide)).1 (by decide),
   ((cartAdd_contract sampleRuntime sampleStore ⟨"205", .undefined⟩
      ⟨"not-an-id", "ann@example.com", "Ann", "Lee"⟩).1
      atomicHabits 10 1 (by decide) (by decide) (by decide)).2.2 (by decide) (by decide),
   (cartAdd_contract sampleRuntime sampleStore ⟨"999", .undefined⟩ sampleUser).2.1
      (by decide)⟩

/-- C2, counterexample. A request for -5 copies of product 205 passes the
inventory check: a cart record with quantity -5 is inserted and the inventory
of the product goes from 10 up to 15.  A request for 0 copies inserts a
record with quantity 0. -/
theorem cartAdd_nonpositive_quantity_recorded :
    (cartAdd sampleRuntime sampleStore ⟨"205", .num (.fin (-5) 0)⟩ sampleUser).store.Cart =
        [⟨161, 205, .num (.fin (-5) 0), 0⟩] ∧
    (cartAdd sampleRuntime sampleStore ⟨"205", .num (.fin (-5) 0)⟩
        sampleUser).store.Products =
        [{ atomicHabits with AvailableInventory := .fin 15 0 }, theAlchemist] ∧
    (cartAdd sampleRuntime sampleStore ⟨"205", .num (.fin 0 0)⟩ sampleUser).store.Cart =
        [⟨161, 205, .num (.fin 0 0), 0⟩] ∧
    ¬ (∀ (rt : Runtime) (s : Store) (body : CartBody) (user : Identity) (item : CartItem),
        (cartAdd rt s body user).store.Cart = s.Cart ++ [item] →
        ∃ q : Int, item.quantity = .num (.fin q 0) ∧ 1 ≤ q) := by
  refine ⟨by decide, by decide, by decide, ?_⟩
  intro h
  obtain ⟨q, hq, hpos⟩ := h sampleRuntime sampleStore ⟨"205", .num (.fin (-5) 0)⟩ sampleUser
    ⟨161, 205, .num (.fin (-5) 0), 0⟩ (by decide)
  simp only [JsValue.num.injEq, JsNumber.fin.injEq, and_true] at hq
  omega

/-- C2, amended. Add-to-cart either leaves the store as it is, or records
exactly one cart item whose quantity is the quantity value of the request (1
when omitted), whatever its sign or type, for the product `p` found.  The
only check is that the inventory of `p` is not less than the Number the
quantity converts to.  The product mutation adds the negated Number to the
inventory of `p`, in the arithmetic of doubles.  For an integer quantity `q`
on an integer inventory `n` with `n - q` at most `2 ^ 53` in magnitude, `q`
does not exceed `n` and the new inventory is `n - q`, which is a decrement
exactly when `q ≥ 1`. -/
theorem cartAdd_quantity_as_requested (rt : Runtime) (s : Store) (body : CartBody)
    (user : Identity) :
    (cartAdd rt s body user).store = s ∨
    ∃ p v uid pre post,
      findProductById s.Products (parseInt body.productId.data) = some p ∧
      (quantityOrDefault body.quantity).toNumber rt = some v ∧
      p.AvailableInventory.lt v = false ∧
      (cartAdd rt s body user).store.Cart =
        s.Cart ++ [⟨uid, p.id, quantityOrDefault body.quantity, rt.now⟩] ∧
      s.Products = pre ++ p :: post ∧ (∀ x ∈ pre, x.id ≠ p.id) ∧
      (cartAdd rt s body user).store.Products =
        pre ++ { p with AvailableInventory := p.AvailableInventory.add v.neg } :: post ∧
      ∀ n q : Int, p.AvailableInventory = .fin n 0 →
        quantityOrDefault body.quantity = .num (.fin q 0) → (n - q).natAbs ≤ 2 ^ 53 →
        q ≤ n ∧ p.AvailableInventory.add v.neg = .fin (n - q) 0 ∧ (n - q < n ↔ 1 ≤ q) := by
  cases hp : findProductById s.Products (parseInt body.productId.data) with
  | none => left; simp [cartAdd, hp]
  | some p =>
    cases hv : (quantityOrDefault body.quantity).toNumber rt with
    | none => left; simp [cartAdd, hp, hv]
    | some v =>
      by_cases hlt : p.AvailableInventory.lt v = true
      · left; simp [cartAdd, hp, hv, hlt]
      · have hl : p.AvailableInventory.lt v = false := by simpa using hlt
        cases huid : rt.objectId user.id with
        | none => left; simp [cartAdd, hp, hv, hl, huid]
        | some uid =>
          right
          obtain ⟨_, hcart, _, pre, post, e1, e2, e3⟩ :=
            cartAdd_success rt s body user p v uid hp hv hl huid
          refine ⟨p, v, uid, pre, post, rfl, rfl, hl, hcart, e1, e2, e3, ?_⟩
          intro n q hn hq hexact
          have hvq : v = .fin q 0 := by
            rw [hq] at hv
            simpa [JsValue.toNumber] using hv.symm
          subst hvq
          rw [hn, JsNumber.lt_int] at hl
          refine ⟨by simpa using hl, ?_, by omega⟩
          rw [hn]
          exact JsNumber.add_neg_int n q hexact

/-- C2, worked case: the string quantity " 3 " on product 205 of the sample
store is recorded as that string, and the inventory goes from 10 to 7. -/
theorem cartAdd_quantity_as_requested_witness :
    (cartAdd sampleRuntime sampleStore ⟨"205", .str " 3 "⟩ sampleUser).store.Cart =
      [⟨161, 205, .str " 3 ", 0⟩] ∧
    (cartAdd sampleRuntime sampleStore ⟨"205", .str " 3 "⟩ sampleUser).store.Products =
      [{ atomicHabits with AvailableInventory := .fin 7 0 }, theAlchemist] ∧
    ((cartAdd sampleRuntime sampleStore ⟨"205", .str " 3 "⟩ sampleUser).store = sampleStore ∨
      ∃ p v uid pre post,
        findProductById sampleStore.Products (parseInt "205".data) = some p ∧
        (quantityOrDefault (.str " 3 ")).toNumber sampleRuntime = some v ∧
        p.AvailableInventory.lt v = false ∧
        (cartAdd sampleRuntime sampleStore ⟨"205", .str " 3 "⟩ sampleUser).store.Cart =
          sampleStore.Cart ++ [⟨uid, p.id, quantityOrDefault (.str " 3 "), 0⟩] ∧
        sampleStore.Products = pre ++ p :: post ∧ (∀ x ∈ pre, x.id ≠ p.id) ∧
        (cartAdd sampleRuntime sampleStore ⟨"205", .str " 3 "⟩ sampleUser).store.Products =
          pre ++ { p with AvailableInventory := p.AvailableInventory.add v.neg } :: post ∧
        ∀ n q : Int, p.AvailableInventory = .fin n 0 →
          quantityOrDefault (.str " 3 ") = .num (.fin q 0) → (n - q).natAbs ≤ 2 ^ 53 →
          q ≤ n ∧ p.AvailableInventory.add v.neg = .fin (n - q) 0 ∧ (n - q < n ↔ 1 ≤ q)) :=
  ⟨by decide, by decide,
    cartAdd_quantity_as_requested sampleRuntime sampleStore ⟨"205", .str " 3 "⟩ sampleUser⟩

/-! ## Chatbot -/

/-- The keyword loop returns the response of the first entry of the mapping
whose keyword the message includes, and the initial response when there is none. -/
theorem keywordLoop_eq_find (lower : List Char) (d : String) :
    ∀ table : List (String × String),
      keywordLoop lower d table =
        match table.find? (fun kv => includes lower kv.1.data) with
        | some kv => kv.2
        | none => d := by
  intro table
  induction table with
  | nil => rfl
  | cons kv rest ih =>
    obtain ⟨keyword, text⟩ := kv
    by_cases h : includes lower keyword.data = true
    · simp [keywordLoop, List.find?_cons, h]
    · simp [keywordLoop, List.find?_cons, h, ih]

/-- The chatbot's answer to a message that is not blank. -/
theorem chatbotRespond_nonblank (rt : Runtime) (s : Store) (countOk : Bool) (m : String)
    (hm : blank (some m) = false) :
    chatbotRespond rt s countOk (some m) =
      if includes (toLowerCase rt m.data) "how many".data
          || includes (toLowerCase rt m.data) "count".data then
        if countOk then
          ⟨⟨200, .reply (countResponse s.Products.length)⟩, s, [.countDocuments "Products"]⟩
        else ⟨⟨200, .reply fallbackResponse⟩, s, [.countDocuments "Products"]⟩
      else
        ⟨⟨200, .reply (keywordLoop (toLowerCase rt m.data) defaultResponse responses)⟩, s, []⟩ := by
  simp only [chatbotRespond, hm]
  rfl

/-- C3. Keyword dispatch.  For a message that is not blank and whose
lower-cased form includes neither "how many" nor "count", the response is the
canned response of the first keyword, in insertion order of the mapping
(hello, hi, books, genres, price, ...), that the lower-cased message
includes, and the default response when it includes none.  "Hello, do you
have books?" gets the response of "hello", which is not the one of "books". -/
theorem chatbot_keyword_dispatch :
    (∀ (rt : Runtime) (s : Store) (countOk : Bool) (m : String),
      blank (some m) = false →
      includes (toLowerCase rt m.data) "how many".data = false →
      includes (toLowerCase rt m.data) "count".data = false →
      (chatbotRespond rt s countOk (some m)).response =
        ⟨200, .reply
          (match responses.find? (fun kv => includes (toLowerCase rt m.data) kv.1.data) with
           | some kv => kv.2
           | none => defaultResponse)⟩) ∧
    responses.map (fun kv => kv.1) =
      ["hello", "hi", "books", "genres", "price", "shipping", "delivery", "help", "account",
       "authors", "bestseller", "recommend", "search", "inventory", "contact", "thanks",
       "bye"] ∧
    (∀ (rt : Runtime) (s : Store) (countOk : Bool),
      (chatbotRespond rt s countOk (some "Hello, do you have books?")).response =
        ⟨200, .reply
          "Hello! Welcome to RapidReads! How can I help you find your next great book today?"⟩) ∧
    responses.lookup "hello" ≠ responses.lookup "books" := by
  refine ⟨?_, by decide, ?_, by decide⟩
  · intro rt s countOk m hm h1 h2
    rw [chatbotRespond_nonblank rt s countOk m hm, h1, h2, keywordLoop_eq_find]
    rfl
  · intro rt s countOk
    rfl

/-- C3, worked case: "thanks for the price list" includes the keywords
"price" and "thanks"; the response is the one of "price", the earlier entry. -/
theorem chatbot_keyword_dispatch_witness :
    (chatbotRespond sampleRuntime sampleStore true (some "Thanks for the price list")).response =
      ⟨200, .reply
        (match responses.find? (fun kv =>
            includes (toLowerCase sampleRuntime "Thanks for the price list".data) kv.1.data) with
         | some kv => kv.2
         | none => defaultResponse)⟩ :=
  chatbot_keyword_dispatch.1 sampleRuntime sampleStore true "Thanks for the price list"
    (by decide) (by decide) (by decide)

/-- C4. Count override.  For a message that is not blank and whose lower-cased
form includes "how many" or "count", the response is the product-count
sentence built from the number of products in the store when the count query
succeeds, and the fallback sentence when it fails, whatever keyword of the
mapping the message includes; the sentence embeds the count in decimal.
"how many books" is such a message. -/
theorem chatbot_count_override :
    (∀ (rt : Runtime) (s : Store) (m : String),
      blank (some m) = false →
      (includes (toLowerCase rt m.data) "how many".data = true ∨
        includes (toLowerCase rt m.data) "count".data = true) →
      (chatbotRespond rt s true (some m)).response =
        ⟨200, .reply (countResponse s.Products.length)⟩ ∧
      (chatbotRespond rt s false (some m)).response = ⟨200, .reply fallbackResponse⟩ ∧
      (chatbotRespond rt s true (some m)).store = s ∧
      (chatbotRespond rt s false (some m)).store = s) ∧
    (∀ n : Nat, countResponse n =
      "We currently have " ++ Nat.repr n ++
        " books available in our collection across various genres!") ∧
    (∀ (rt : Runtime) (s : Store),
      (chatbotRespond rt s true (some "how many books")).response =
        ⟨200, .reply (countResponse s.Products.length)⟩ ∧
      (chatbotRespond rt s false (some "how many books")).response =
        ⟨200, .reply fallbackResponse⟩) := by
  refine ⟨?_, fun n => rfl, ?_⟩
  · intro rt s m hm h
    have hor : (includes (toLowerCase rt m.data) "how many".data
        || includes (toLowerCase rt m.data) "count".data) = true := by
      rcases h with h | h <;> simp [h]
    rw [chatbotRespond_nonblank rt s true m hm, chatbotRespond_nonblank rt s false m hm, hor]
    simp
  · intro rt s
    exact ⟨rfl, rfl⟩

/-- C4, worked case: "My account" includes the keyword "account" and also
"count"; on the sample store with two products the answer is the count
sentence with 2, or the fallback when the count query fails. -/
theorem chatbot_count_override_witness :
    (chatbotRespond sampleRuntime sampleStore true (some "My account")).response =
      ⟨200, .reply (countResponse sampleStore.Products.length)⟩ ∧
    (chatbotRespond sampleRuntime sampleStore false (some "My account")).response =
      ⟨200, .reply fallbackResponse⟩ ∧
    (chatbotRespond sampleRuntime sampleStore true (some "My account")).store = sampleStore ∧
    (chatbotRespond sampleRuntime sampleStore false (some "My account")).store = sampleStore :=
  chatbot_count_override.1 sampleRuntime sampleStore "My account" (by decide)
    (Or.inr (by decide))

/-! ## Regular expressions -/

theorem matchAtoms_lit (eq : Char → Char → Bool) (k : List Char → Bool) (c : Char)
    (rest : List Atom) (s : List Char) :
    matchAtoms eq k (.lit c :: rest) s = true ↔
      ∃ x t, s = x :: t ∧ eq c x = true ∧ matchAtoms eq k rest t = true := by
  cases s with
  | nil => simp [matchAtoms]
  | cons x t =>
    simp only [matchAtoms, Bool.and_eq_true, List.cons.injEq]
    constructor
    · rintro ⟨h1, h2⟩
      exact ⟨x, t, ⟨rfl, rfl⟩, h1, h2⟩
    · rintro ⟨y, u, ⟨rfl, rfl⟩, h1, h2⟩
      exact ⟨h1, h2⟩

theorem matchAtoms_cls (eq : Char → Char → Bool) (k : List Char → Bool) (p : Char → Bool)
    (rest : List Atom) (s : List Char) :
    matchAtoms eq k (.cls p :: rest) s = true ↔
      ∃ x t, s = x :: t ∧ p x = true ∧ matchAtoms eq k rest t = true := by
  cases s with
  | nil => simp [matchAtoms]
  | cons x t =>
    simp only [matchAtoms, Bool.and_eq_true, List.cons.injEq]
    constructor
    · rintro ⟨h1, h2⟩
      exact ⟨x, t, ⟨rfl, rfl⟩, h1, h2⟩
    · rintro ⟨y, u, ⟨rfl, rfl⟩, h1, h2⟩
      exact ⟨h1, h2⟩

theorem matchAtoms_plus (eq : Char → Char → Bool) (k : List Char → Bool) (p : Char → Bool)
    (rest : List Atom) :
    ∀ s : List Char, matchAtoms eq k (.plus p :: rest) s = true ↔
      ∃ a b, s = a ++ b ∧ a ≠ [] ∧ (∀ c ∈ a, p c = true) ∧
        matchAtoms eq k rest b = true := by
  intro s
  induction s with
  | nil => simp [matchAtoms]
  | cons x t ih =>
    simp only [matchAtoms, Bool.and_eq_true, Bool.or_eq_true]
    constructor
    · rintro ⟨hx, h | h⟩
      · obtain ⟨a, b, e, _, hall, hm⟩ := ih.mp h
        refine ⟨x :: a, b, by simp [e], by simp, ?_, hm⟩
        intro c hc
        rcases List.mem_cons.mp hc with rfl | hc
        · exact hx
        · exact hall c hc
      · exact ⟨[x], t, rfl, by simp, by simpa using hx, h⟩
    · rintro ⟨a, b, e, hne, hall, hm⟩
      cases a with
      | nil => exact absurd rfl hne
      | cons y a1 =>
        simp only [List.cons_append, List.cons.injEq] at e
        obtain ⟨rfl, rfl⟩ := e
        refine ⟨hall x (List.mem_cons_self _ _), ?_⟩
        by_cases ha : a1 = []
        · subst ha
          right
          simpa using hm
        · left
          exact ih.mpr ⟨a1, b, rfl, ha, fun c hc => hall c (List.mem_cons_of_mem _ hc), hm⟩

/-- What the email pattern accepts, as a decomposition of the text. -/
theorem emailRegex_test (e : List Char) :
    testAnchored emailRegex e = true ↔
      ∃ a b c, e = a ++ '@' :: (b ++ '.' :: c) ∧ a ≠ [] ∧ b ≠ [] ∧ c ≠ [] ∧
        (∀ x ∈ a, notSpaceAt x = true) ∧ (∀ x ∈ b, notSpaceAt x = true) ∧
        (∀ x ∈ c, notSpaceAt x = true) := by
  unfold testAnchored emailRegex
  constructor
  · intro h
    obtain ⟨a, r1, e1, ha, hpa, h⟩ := (matchAtoms_plus _ _ _ _ _).mp h
    obtain ⟨x, r2, e2, hx, h⟩ := (matchAtoms_lit _ _ _ _ _).mp h
    obtain ⟨b, r3, e3, hb, hpb, h⟩ := (matchAtoms_plus _ _ _ _ _).mp h
    obtain ⟨y, r4, e4, hy, h⟩ := (matchAtoms_lit _ _ _ _ _).mp h
    obtain ⟨c, r5, e5, hc, hpc, h⟩ := (matchAtoms_plus _ _ _ _ _).mp h
    simp only [matchAtoms, List.isEmpty_iff] at h
    subst h
    simp only [beq_iff_eq] at hx hy
    subst hx hy
    refine ⟨a, b, c, ?_, ha, hb, hc, hpa, hpb, hpc⟩
    rw [e1, e2, e3, e4, e5]
    simp
  · rintro ⟨a, b, c, rfl, ha, hb, hc, hpa, hpb, hpc⟩
    refine (matchAtoms_plus _ _ _ _ _).mpr ⟨a, _, rfl, ha, hpa, ?_⟩
    refine (matchAtoms_lit _ _ _ _ _).mpr ⟨'@', _, rfl, by simp, ?_⟩
    refine (matchAtoms_plus _ _ _ _ _).mpr ⟨b, _, rfl, hb, hpb, ?_⟩
    refine (matchAtoms_lit _ _ _ _ _).mpr ⟨'.', _, rfl, by simp, ?_⟩
    refine (matchAtoms_plus _ _ _ _ _).mpr ⟨c, [], by simp, hc, hpc, ?_⟩
    simp [matchAtoms]

theorem notSpaceAt_iff (x : Char) :
    notSpaceAt x = true ↔ isWhiteSpace x = false ∧ x ≠ '@' := by
  simp [notSpaceAt]

/-- The email pattern accepts exactly the texts of the form the spec words. -/
theorem emailRegex_iff_form (e : List Char) :
    testAnchored emailRegex e = true ↔ EmailForm e := by
  rw [emailRegex_test]
  have hat : isWhiteSpace '@' = false := by decide
  have hdot : isWhiteSpace '.' = false := by decide
  constructor
  · rintro ⟨a, b, c, rfl, ha, hb, hc, hpa, hpb, hpc⟩
    have na : a.count '@' = 0 :=
      List.count_eq_zero.mpr (fun h => ((notSpaceAt_iff _).mp (hpa _ h)).2 rfl)
    have nb : b.count '@' = 0 :=
      List.count_eq_zero.mpr (fun h => ((notSpaceAt_iff _).mp (hpb _ h)).2 rfl)
    have nc : c.count '@' = 0 :=
      List.count_eq_zero.mpr (fun h => ((notSpaceAt_iff _).mp (hpc _ h)).2 rfl)
    refine ⟨?_, ?_, a, b ++ '.' :: c, rfl, ha, b, c, rfl, hb, hc⟩
    · intro x hx
      simp only [List.mem_append, List.mem_cons] at hx
      rcases hx with hx | rfl | hx | rfl | hx
      · exact ((notSpaceAt_iff _).mp (hpa _ hx)).1
      · exact hat
      · exact ((notSpaceAt_iff _).mp (hpb _ hx)).1
      · exact hdot
      · exact ((notSpaceAt_iff _).mp (hpc _ hx)).1
    · simp [List.count_append, List.count_cons, na, nb, nc]
  · rintro ⟨hws, hcount, a, dom, rfl, ha, b, c, rfl, hb, hc⟩
    have hsum : a.count '@' + (b.count '@' + c.count '@') = 0 := by
      simp [List.count_append, List.count_cons] at hcount
      omega
    have na : '@' ∉ a := List.count_eq_zero.mp (by omega)
    have nb : '@' ∉ b := List.count_eq_zero.mp (by omega)
    have nc : '@' ∉ c := List.count_eq_zero.mp (by omega)
    refine ⟨a, b, c, rfl, ha, hb, hc, ?_, ?_, ?_⟩
    · intro x hx
      exact (notSpaceAt_iff x).mpr ⟨hws x (by simp [hx]), fun h => na (h ▸ hx)⟩
    · intro x hx
      exact (notSpaceAt_iff x).mpr ⟨hws x (by simp [hx]), fun h => nb (h ▸ hx)⟩
    · intro x hx
      exact (notSpaceAt_iff x).mpr ⟨hws x (by simp [hx]), fun h => nc (h ▸ hx)⟩

/-! ## Validation layer -/

/-- The outcome of registration validation on a body with four string fields. -/
theorem validateRegistration_strings (rt : Runtime) (f l e p : String) :
    (f.data ≠ [] ∧ l.data ≠ [] ∧ e.data ≠ [] ∧ p.data ≠ [] ∧
      2 ≤ jsLength (trim f.data) ∧ 2 ≤ jsLength (trim l.data) ∧
      testAnchored emailRegex e.data = true ∧ 6 ≤ jsLength p.data ∧
      validateRegistration rt ⟨.str f, .str l, .str e, .str p⟩ =
        .next ⟨f, l, .str e, .str p⟩) ∨
    (¬ (f.data ≠ [] ∧ l.data ≠ [] ∧ e.data ≠ [] ∧ p.data ≠ [] ∧
      2 ≤ jsLength (trim f.data) ∧ 2 ≤ jsLength (trim l.data) ∧
      testAnchored emailRegex e.data = true ∧ 6 ≤ jsLength p.data) ∧
      ∃ msg, validateRegistration rt ⟨.str f, .str l, .str e, .str p⟩ =
        .respond ⟨400, .message msg⟩) := by
  have hlen : (((JsValue.str p).length rt).toNumber rt) = some (.fin (jsLength p.data) 0) := rfl
  have hlt : (JsNumber.fin (jsLength p.data) 0).lt (.fin 6 0) = decide (jsLength p.data < 6) := by
    rw [JsNumber.lt_int]
    simp
  simp only [validateRegistration, truthy, JsValue.toText, hlen, hlt, Bool.not_not,
    List.isEmpty_iff]
  by_cases h1 : f.data = []
  · right; simp [h1]
  by_cases h2 : l.data = []
  · right; simp [h1, h2]
  by_cases h3 : e.data = []
  · right; simp [h1, h2, h3]
  by_cases h4 : p.data = []
  · right; simp [h1, h2, h3, h4]
  by_cases h5 : jsLength (trim f.data) < 2
  · right; simp [h1, h2, h3, h4, h5]
  by_cases h6 : jsLength (trim l.data) < 2
  · right
    refine ⟨fun h => absurd h.2.2.2.2.2.1 (by omega), ?_⟩
    simp [h1, h2, h3, h4, h5, h6]
  by_cases h7 : testAnchored emailRegex e.data = true
  · by_cases h8 : jsLength p.data < 6
    · right
      refine ⟨fun h => absurd h.2.2.2.2.2.2.2 (by omega), ?_⟩
      simp [h1, h2, h3, h4, h5, h6, h7, h8]
    · left
      refine ⟨h1, h2, h3, h4, by omega, by omega, h7, by omega, ?_⟩
      simp [h1, h2, h3, h4, h5, h6, h7, h8]
  · right
    refine ⟨fun h => h7 h.2.2.2.2.2.2.1, ?_⟩
    simp [h1, h2, h3, h4, h5, h6, h7]

/-- A body with a falsy field is answered with 400. -/
theorem validateRegistration_falsy (rt : Runtime) (body : RegisterBody)
    (h : truthy body.firstName = false ∨ truthy body.lastName = false ∨
      truthy body.email = false ∨ truthy body.password = false) :
    validateRegistration rt body = .respond ⟨400, .message "All fields are required"⟩ := by
  unfold validateRegistration
  rw [if_pos]
  rcases h with h | h | h | h <;> simp [h]

theorem truthy_str_iff (s : String) : truthy (.str s) = false ↔ s.data = [] := by
  simp [truthy]

/-- On a body whose fields are strings or falsy, registration validation
either passes the fields on, and then the body is valid in the spec's words,
or answers 400, and then it is not. -/
theorem validateRegistration_cases (rt : Runtime) (body : RegisterBody)
    (hs : StringFields body) :
    (ValidRegistration body ∧ ∃ r, validateRegistration rt body = .next r ∧
      body = ⟨.str r.firstName, .str r.lastName, r.email, r.password⟩) ∨
    (¬ ValidRegistration body ∧
      ∃ msg, validateRegistration rt body = .respond ⟨400, .message msg⟩) := by
  have hfalsy : (truthy body.firstName = false ∨ truthy body.lastName = false ∨
      truthy body.email = false ∨ truthy body.password = false) →
      (¬ ValidRegistration body ∧
        ∃ msg, validateRegistration rt body = .respond ⟨400, .message msg⟩) := by
    intro h
    refine ⟨?_, _, validateRegistration_falsy rt body h⟩
    rintro ⟨f, l, e, p, rfl, h1, h2, h3, h4, _⟩
    simp only [truthy_str_iff] at h
    rcases h with h | h | h | h
    · exact h1 h
    · exact h2 h
    · exact h3 h
    · exact h4 h
  obtain ⟨bf, bl, be, bp⟩ := body
  obtain ⟨hf, hl, he, hp⟩ := hs
  simp only [stringOrFalsy] at hf hl he hp
  rcases hf with hf | ⟨f, rfl⟩
  · right; exact hfalsy (Or.inl hf)
  rcases hl with hl | ⟨l, rfl⟩
  · right; exact hfalsy (Or.inr (Or.inl hl))
  rcases he with he | ⟨e, rfl⟩
  · right; exact hfalsy (Or.inr (Or.inr (Or.inl he)))
  rcases hp with hp | ⟨p, rfl⟩
  · right; exact hfalsy (Or.inr (Or.inr (Or.inr hp)))
  rcases validateRegistration_strings rt f l e p with h | ⟨hn, hmsg⟩
  · left
    obtain ⟨h1, h2, h3, h4, h5, h6, h7, h8, h9⟩ := h
    exact ⟨⟨f, l, e, p, rfl, h1, h2, h3, h4, h5, h6,
      (emailRegex_iff_form _).mp h7, h8⟩, _, h9, rfl⟩
  · right
    refine ⟨?_, hmsg⟩
    rintro ⟨f1, l1, e1, p1, hb, h1, h2, h3, h4, h5, h6, h7, h8⟩
    simp only [RegisterBody.mk.injEq, JsValue.str.injEq] at hb
    obtain ⟨rfl, rfl, rfl, rfl⟩ := hb
    exact hn ⟨h1, h2, h3, h4, h5, h6, (emailRegex_iff_form _).mpr h7, h8⟩

/-- A valid body has four string fields. -/
theorem ValidRegistration.stringFields {body : RegisterBody} (h : ValidRegistration body) :
    StringFields body := by
  obtain ⟨f, l, e, p, rfl, _⟩ := h
  exact ⟨Or.inr ⟨f, rfl⟩, Or.inr ⟨l, rfl⟩, Or.inr ⟨e, rfl⟩, Or.inr ⟨p, rfl⟩⟩

/-- What validation passes on are the fields of the body, both names being
strings. -/
theorem validateRegistration_next (rt : Runtime) (body : RegisterBody) (r : Registration)
    (h : validateRegistration rt body = .next r) :
    body = ⟨.str r.firstName, .str r.lastName, r.email, r.password⟩ := by
  obtain ⟨bf, bl, be, bp⟩ := body
  unfold validateRegistration at h
  simp only at h
  repeat' split at h
  all_goals first
    | (cases h; done)
    | (cases h; rfl)

/-- The email `a@b` has no `.` after the `@`. -/
theorem emailForm_no_dot : ¬ EmailForm "a@b".data := by
  rintro ⟨_, _, loc, dom, e, _, u, v, rfl, _, _⟩
  have h : '.' ∈ "a@b".data := by
    rw [e]
    simp
  exact absurd h (by decide)

/-- C5, counterexample. With the number 1 as password and three valid string
fields, validation passes the request on although the password has no 6
characters: the handler runs, looks the email up and answers 500.  With the
number 12 as first name the middleware answers 500, not 400. -/
theorem validateRegistration_nonstring_fields :
    validateRegistration sampleRuntime
        ⟨.str "Ann", .str "Lee", .str "ann@example.com", .num (.fin 1 0)⟩ =
      .next ⟨"Ann", "Lee", .str "ann@example.com", .num (.fin 1 0)⟩ ∧
    ¬ ValidRegistration ⟨.str "Ann", .str "Lee", .str "ann@example.com", .num (.fin 1 0)⟩ ∧
    (postRegister sampleRuntime sampleStore
        ⟨.str "Ann", .str "Lee", .str "ann@example.com", .num (.fin 1 0)⟩).response =
      ⟨500, .message "Registration failed"⟩ ∧
    (postRegister sampleRuntime sampleStore
        ⟨.str "Ann", .str "Lee", .str "ann@example.com", .num (.fin 1 0)⟩).calls =
      [.findOne "Users"] ∧
    validateRegistration sampleRuntime
        ⟨.num (.fin 12 0), .str "Lee", .str "ann@example.com", .str "secret"⟩ =
      .respond ⟨500, .message "Internal server error"⟩ ∧
    ¬ (∀ (rt : Runtime) (body : RegisterBody),
        ((∃ r, validateRegistration rt body = .next r) ↔ ValidRegistration body) ∧
        (¬ ValidRegistration body →
          ∃ msg, validateRegistration rt body = .respond ⟨400, .message msg⟩)) := by
  have hnot : ¬ ValidRegistration
      ⟨.str "Ann", .str "Lee", .str "ann@example.com", .num (.fin 1 0)⟩ := by
    rintro ⟨f, l, e, p, hb, _⟩
    simp at hb
  refine ⟨by decide, hnot, by decide, by decide, by decide, ?_⟩
  intro h
  exact hnot ((h sampleRuntime
    ⟨.str "Ann", .str "Lee", .str "ann@example.com", .num (.fin 1 0)⟩).1.mp
    ⟨⟨"Ann", "Lee", .str "ann@example.com", .num (.fin 1 0)⟩, by decide⟩)

/-- C5, amended. For a registration payload whose four fields are strings or
falsy (absent, `null`), validation passes the request on to the handler if
and only if the four fields are present and not empty, both names have at
least 2 characters after trimming, the email has the form `local@domain.tld`
and the password has at least 6 characters; in every other case of such a
payload the answer is 400 with a message.  For any payload, what is passed on
carries the fields of the body, and when validation does not pass the request
on the handler is not run: the route leaves the store as it is without a
single store call. -/
theorem validateRegistration_gate (rt : Runtime) :
    (∀ body, StringFields body →
      ((∃ r, validateRegistration rt body = .next r) ↔ ValidRegistration body)) ∧
    (∀ body r, validateRegistration rt body = .next r →
      body = ⟨.str r.firstName, .str r.lastName, r.email, r.password⟩ ∧
      ∀ s, postRegister rt s body = register rt s r) ∧
    (∀ body, StringFields body → ¬ ValidRegistration body →
      (∃ msg, validateRegistration rt body = .respond ⟨400, .message msg⟩) ∧
      ∀ s, (postRegister rt s body).response.status = 400) ∧
    (∀ body, (∀ r, validateRegistration rt body ≠ .next r) →
      ∀ s, (postRegister rt s body).store = s ∧ (postRegister rt s body).calls = []) := by
  refine ⟨?_, ?_, ?_, ?_⟩
  · intro body hs
    rcases validateRegistration_cases rt body hs with ⟨hv, r, hr, _⟩ | ⟨hn, msg, hmsg⟩
    · exact ⟨fun _ => hv, fun _ => ⟨r, hr⟩⟩
    · constructor
      · rintro ⟨r, hr⟩
        rw [hmsg] at hr
        cases hr
      · intro hv
        exact absurd hv hn
  · intro body r hr
    exact ⟨validateRegistration_next rt body r hr, fun s => by simp [postRegister, hr]⟩
  · intro body hs hn
    rcases validateRegistration_cases rt body hs with ⟨hv, _⟩ | ⟨_, msg, hmsg⟩
    · exact absurd hv hn
    · exact ⟨⟨msg, hmsg⟩, fun s => by simp [postRegister, hmsg]⟩
  · intro body hno s
    cases hv : validateRegistration rt body with
    | next r => exact absurd hv (hno r)
    | respond res => simp [postRegister, hv]

/-- C5, worked cases: the body Ann, Lee, ann@example.com, secret is passed
on; the same body with the email `a@b` is answered with 400 and the route
makes no store call. -/
theorem validateRegistration_gate_witness :
    (∃ r, validateRegistration sampleRuntime
      ⟨.str "Ann", .str "Lee", .str "ann@example.com", .str "secret"⟩ = .next r) ∧
    ((∃ msg, validateRegistration sampleRuntime
        ⟨.str "Ann", .str "Lee", .str "a@b", .str "secret"⟩ =
        .respond ⟨400, .message msg⟩) ∧
      ∀ s, (postRegister sampleRuntime s
          ⟨.str "Ann", .str "Lee", .str "a@b", .str "secret"⟩).response.status = 400) ∧
    (∀ s, (postRegister sampleRuntime s
          ⟨.str "Ann", .str "Lee", .str "a@b", .str "secret"⟩).store = s ∧
        (postRegister sampleRuntime s
          ⟨.str "Ann", .str "Lee", .str "a@b", .str "secret"⟩).calls = []) :=
  ⟨((validateRegistration_gate sampleRuntime).1 _
      ⟨Or.inr ⟨_, rfl⟩, Or.inr ⟨_, rfl⟩, Or.inr ⟨_, rfl⟩, Or.inr ⟨_, rfl⟩⟩).mpr
      ⟨"Ann", "Lee", "ann@example.com", "secret", rfl, by decide, by decide, by decide,
        by decide, by decide, by decide,
        ⟨by decide, by decide, "ann".data, "example.com".data, by decide, by decide,
          "example".data, "com".data, by decide, by decide, by decide⟩, by decide⟩,
    (validateRegistration_gate sampleRuntime).2.2.1
      ⟨.str "Ann", .str "Lee", .str "a@b", .str "secret"⟩
      ⟨Or.inr ⟨_, rfl⟩, Or.inr ⟨_, rfl⟩, Or.inr ⟨_, rfl⟩, Or.inr ⟨_, rfl⟩⟩
      (by
        rintro ⟨f, l, e, p, hb, _, _, _, _, _, _, hform, _⟩
        simp only [RegisterBody.mk.injEq, JsValue.str.injEq] at hb
        obtain ⟨_, _, rfl, _⟩ := hb
        exact emailForm_no_dot hform),
    (validateRegistration_gate sampleRuntime).2.2.2
      ⟨.str "Ann", .str "Lee", .str "a@b", .str "secret"⟩
      (fun r h => by
        have h2 : validateRegistration sampleRuntime
            ⟨.str "Ann", .str "Lee", .str "a@b", .str "secret"⟩ =
            .respond ⟨400, .message "Please provide a valid email address"⟩ := by decide
        rw [h2] at h
        cases h)⟩

/-! ## Authentication routes -/

theorem findUserByEmail_none {us : List User} {email : String} :
    findUserByEmail us email = none ↔ ∀ u ∈ us, u.email ≠ email := by
  simp [findUserByEmail, List.find?_eq_none]

/-- A registration answered with 201 found no user with the normalized email
and appended one user carrying it. -/
theorem register_created (rt : Runtime) (s : Store) (r : Registration) (e : String)
    (he : r.email = .str e) (h : (register rt s r).response.status = 201) :
    findUserByEmail s.Users (String.mk (toLowerCase rt e.data)) = none ∧
    ∃ u : User, u.email = String.mk (toLowerCase rt e.data) ∧
      (register rt s r).store = { s with Users := s.Users ++ [u] } := by
  cases hf : findUserByEmail s.Users (String.mk (toLowerCase rt e.data)) with
  | some u0 => simp [register, he, hf] at h
  | none =>
    cases hp : r.password with
    | str p =>
      refine ⟨rfl, ⟨rt.insertedId, String.mk (trim r.firstName.data),
        String.mk (trim r.lastName.data), String.mk (toLowerCase rt e.data),
        rt.bcryptHash p, rt.now, rt.now, none⟩, rfl, ?_⟩
      simp [register, he, hf, hp]
    | _ => simp [register, he, hf, hp] at h

/-- A registration whose normalized email a user of the store carries is
answered with 400 and changes nothing. -/
theorem register_rejects_known_email (rt : Runtime) (s : Store) (r : Registration)
    (e : String) (he : r.email = .str e) (u : User)
    (hu : u ∈ s.Users) (hue : u.email = String.mk (toLowerCase rt e.data)) :
    (register rt s r).response = ⟨400, .message "Email already registered"⟩ ∧
    (register rt s r).store = s := by
  cases hf : findUserByEmail s.Users (String.mk (toLowerCase rt e.data)) with
  | some u0 => simp [register, he, hf]
  | none => exact absurd hue (findUserByEmail_none.mp hf u hu)

/-- C6. Duplicate registration, run sequentially on an explicit store.  For
two valid registration payloads whose emails are equal after lower-casing, if
the first is answered with 201 then the second, run on the store the first
left, is answered with 400 "Email already registered" and leaves the store
unchanged, and the `Users` collection holds exactly one record with that
normalized email, before and after the second request. -/
theorem register_duplicate_email (rt1 rt2 : Runtime) (s : Store) (b1 b2 : RegisterBody)
    (e1 e2 : String) (hv1 : ValidRegistration b1) (hv2 : ValidRegistration b2)
    (he1 : b1.email = .str e1) (he2 : b2.email = .str e2)
    (heq : toLowerCase rt1 e1.data = toLowerCase rt2 e2.data)
    (h201 : (postRegister rt1 s b1).response.status = 201) :
    (postRegister rt2 (postRegister rt1 s b1).store b2).response =
      ⟨400, .message "Email already registered"⟩ ∧
    (postRegister rt2 (postRegister rt1 s b1).store b2).store = (postRegister rt1 s b1).store ∧
    ((postRegister rt1 s b1).store.Users.filter
      (fun u => u.email == String.mk (toLowerCase rt1 e1.data))).length = 1 ∧
    ((postRegister rt2 (postRegister rt1 s b1).store b2).store.Users.filter
      (fun u => u.email == String.mk (toLowerCase rt1 e1.data))).length = 1 := by
  rcases validateRegistration_cases rt1 b1 hv1.stringFields with ⟨_, r1, hr1, hb1⟩ | ⟨hn, _⟩
  swap
  · exact absurd hv1 hn
  rcases validateRegistration_cases rt2 b2 hv2.stringFields with ⟨_, r2, hr2, hb2⟩ | ⟨hn, _⟩
  swap
  · exact absurd hv2 hn
  have hre1 : r1.email = .str e1 := by
    rw [hb1] at he1
    simpa using he1
  have hre2 : r2.email = .str e2 := by
    rw [hb2] at he2
    simpa using he2
  have hp1 : postRegister rt1 s b1 = register rt1 s r1 := by simp [postRegister, hr1]
  have hp2 : ∀ t, postRegister rt2 t b2 = register rt2 t r2 := by
    intro t
    simp [postRegister, hr2]
  rw [hp1] at h201 ⊢
  rw [hp2]
  obtain ⟨hnone, u, hu, hstore⟩ := register_created rt1 s r1 e1 hre1 h201
  have hmem : u ∈ (register rt1 s r1).store.Users := by
    rw [hstore]
    simp
  have hrej := register_rejects_known_email rt2 (register rt1 s r1).store r2 e2 hre2 u hmem
    (by rw [hu, heq])
  have hcount : ((register rt1 s r1).store.Users.filter
      (fun u => u.email == String.mk (toLowerCase rt1 e1.data))).length = 1 := by
    rw [hstore]
    have hfil : s.Users.filter
        (fun u => u.email == String.mk (toLowerCase rt1 e1.data)) = [] := by
      rw [List.filter_eq_nil_iff]
      intro a ha
      simpa using findUserByEmail_none.mp hnone a ha
    simp [List.filter_append, hfil, List.filter_cons, hu]
  refine ⟨hrej.1, hrej.2, hcount, ?_⟩
  rw [hrej.2]
  exact hcount

/-- The sample registration body is valid for any email of the specified form. -/
theorem sampleBody_valid (email : String) (h : EmailForm email.data) :
    ValidRegistration ⟨.str "Ann", .str "Lee", .str email, .str "secret"⟩ := by
  refine ⟨"Ann", "Lee", email, "secret", rfl, by decide, by decide, ?_, by decide, by decide,
    by decide, h, by decide⟩
  obtain ⟨_, _, loc, dom, e, _⟩ := h
  rw [e]
  simp

/-- C6, worked case: Ann@Example.com is registered on the empty sample store,
then ann@example.com is refused; one user carries ann@example.com. -/
theorem register_duplicate_email_witness :
    (postRegister sampleRuntime
        (postRegister sampleRuntime sampleStore
          ⟨.str "Ann", .str "Lee", .str "Ann@Example.com", .str "secret"⟩).store
        ⟨.str "Ann", .str "Lee", .str "ann@example.com", .str "secret"⟩).response =
      ⟨400, .message "Email already registered"⟩ ∧
    (postRegister sampleRuntime
        (postRegister sampleRuntime sampleStore
          ⟨.str "Ann", .str "Lee", .str "Ann@Example.com", .str "secret"⟩).store
        ⟨.str "Ann", .str "Lee", .str "ann@example.com", .str "secret"⟩).store =
      (postRegister sampleRuntime sampleStore
          ⟨.str "Ann", .str "Lee", .str "Ann@Example.com", .str "secret"⟩).store ∧
    ((postRegister sampleRuntime sampleStore
          ⟨.str "Ann", .str "Lee", .str "Ann@Example.com", .str "secret"⟩).store.Users.filter
      (fun u => u.email == String.mk (toLowerCase sampleRuntime "Ann@Example.com".data))).length
        = 1 ∧
    ((postRegister sampleRuntime
        (postRegister sampleRuntime sampleStore
          ⟨.str "Ann", .str "Lee", .str "Ann@Example.com", .str "secret"⟩).store
        ⟨.str "Ann", .str "Lee", .str "ann@example.com", .str "secret"⟩).store.Users.filter
      (fun u => u.email == String.mk (toLowerCase sampleRuntime "Ann@Example.com".data))).length
        = 1 :=
  register_duplicate_email sampleRuntime sampleRuntime sampleStore
    ⟨.str "Ann", .str "Lee", .str "Ann@Example.com", .str "secret"⟩
    ⟨.str "Ann", .str "Lee", .str "ann@example.com", .str "secret"⟩
    "Ann@Example.com" "ann@example.com"
    (sampleBody_valid _ ⟨by decide, by decide, "Ann".data, "Example.com".data, by decide,
      by decide, "Example".data, "com".data, by decide, by decide, by decide⟩)
    (sampleBody_valid _ ⟨by decide, by decide, "ann".data, "example.com".data, by decide,
      by decide, "example".data, "com".data, by decide, by decide, by decide⟩)
    rfl rfl (by decide) (by decide)

/-- A login that is not answered with 200 leaves the store as it was. -/
theorem postLogin_unchanged (rt : Runtime) (s : Store) (body : LoginBody)
    (h : (postLogin rt s body).response.status ≠ 200) : (postLogin rt s body).store = s := by
  unfold postLogin at h ⊢
  cases hv : validateLogin body with
  | respond res => rfl
  | next c =>
    simp only [hv] at h ⊢
    unfold login at h ⊢
    repeat' split
    all_goals first
      | rfl
      | (rename_i hbc
         simp_all [login])

/-- C7, counterexample. The login Ann@Example.com with the number 1 as
password has email and password present.  On the sample store, where no user
has that email, the answer is 400 "Invalid email or password"; on a store
where ann@example.com is registered the login fails too, but with 500 "Login
failed".  The two answers differ, so the answer reveals whether the email is
registered. -/
theorem login_nonstring_password_reveals :
    truthy (.str "Ann@Example.com") = true ∧ truthy (.num (.fin 1 0)) = true ∧
    (postLogin sampleRuntime sampleStore
        ⟨.str "Ann@Example.com", .num (.fin 1 0)⟩).response =
      ⟨400, .message "Invalid email or password"⟩ ∧
    (postLogin sampleRuntime
        { sampleStore with Users :=
            [⟨161, "Ann", "Lee", "ann@example.com", "hash:secret", 0, 0, none⟩] }
        ⟨.str "Ann@Example.com", .num (.fin 1 0)⟩).response =
      ⟨500, .message "Login failed"⟩ ∧
    ¬ (∀ (rt : Runtime) (s1 s2 : Store) (body : LoginBody) (e : String),
        body.email = .str e → truthy body.email = true → truthy body.password = true →
        (∀ x ∈ s1.Users, x.email ≠ String.mk (toLowerCase rt e.data)) →
        (∃ u ∈ s2.Users, u.email = String.mk (toLowerCase rt e.data)) →
        (postLogin rt s2 body).response.status ≠ 200 →
        (postLogin rt s1 body).response = (postLogin rt s2 body).response) := by
  refine ⟨by decide, by decide, by decide, by decide, ?_⟩
  intro h
  have h1 := h sampleRuntime sampleStore
    { sampleStore with Users :=
        [⟨161, "Ann", "Lee", "ann@example.com", "hash:secret", 0, 0, none⟩] }
    ⟨.str "Ann@Example.com", .num (.fin 1 0)⟩ "Ann@Example.com" rfl (by decide) (by decide)
    (by decide) ⟨_, List.mem_singleton.mpr rfl, by decide⟩ (by decide)
  exact absurd h1 (by decide)

/-- C7, amended. Login non-enumeration for string credentials.  For a login
request whose email and password are strings that are not empty, the response
(status and body) on a store where no user has the normalized email is the
response on a store where a user with that email exists but the password
does not match the stored hash: 400 "Invalid email or password".  In both
cases the store is left as it was (no last-login stamp) and the only store
call is the lookup. -/
theorem login_non_enumeration (rt1 rt2 : Runtime) (s1 s2 : Store) (email password : String)
    (u : User) (he : email.data ≠ []) (hp : password.data ≠ [])
    (habsent : ∀ x ∈ s1.Users, x.email ≠ String.mk (toLowerCase rt1 email.data))
    (hfound : findUserByEmail s2.Users (String.mk (toLowerCase rt2 email.data)) = some u)
    (hwrong : rt2.bcryptCompare password u.password = false) :
    (postLogin rt1 s1 ⟨.str email, .str password⟩).response =
      (postLogin rt2 s2 ⟨.str email, .str password⟩).response ∧
    (postLogin rt1 s1 ⟨.str email, .str password⟩).response =
      ⟨400, .message "Invalid email or password"⟩ ∧
    (postLogin rt1 s1 ⟨.str email, .str password⟩).store = s1 ∧
    (postLogin rt2 s2 ⟨.str email, .str password⟩).store = s2 ∧
    (postLogin rt1 s1 ⟨.str email, .str password⟩).calls =
      (postLogin rt2 s2 ⟨.str email, .str password⟩).calls := by
  have hv : validateLogin ⟨.str email, .str password⟩ = .next ⟨.str email, .str password⟩ := by
    simp [validateLogin, truthy, he, hp]
  have h1 := findUserByEmail_none.mpr habsent
  simp [postLogin, hv, login, h1, hfound, hwrong]

/-- C7, worked case: the login Ann@Example.com with the password guess1 gets
the same answer on the sample store, which has no users, and on a store where
ann@example.com is registered with the password secret. -/
theorem login_non_enumeration_witness :
    (postLogin sampleRuntime sampleStore
        ⟨.str "Ann@Example.com", .str "guess1"⟩).response =
      (postLogin sampleRuntime
        { sampleStore with Users :=
            [⟨161, "Ann", "Lee", "ann@example.com", "hash:secret", 0, 0, none⟩] }
        ⟨.str "Ann@Example.com", .str "guess1"⟩).response ∧
    (postLogin sampleRuntime sampleStore
        ⟨.str "Ann@Example.com", .str "guess1"⟩).response =
      ⟨400, .message "Invalid email or password"⟩ ∧
    (postLogin sampleRuntime sampleStore ⟨.str "Ann@Example.com", .str "guess1"⟩).store =
      sampleStore ∧
    (postLogin sampleRuntime
        { sampleStore with Users :=
            [⟨161, "Ann", "Lee", "ann@example.com", "hash:secret", 0, 0, none⟩] }
        ⟨.str "Ann@Example.com", .str "guess1"⟩).store =
      { sampleStore with Users :=
          [⟨161, "Ann", "Lee", "ann@example.com", "hash:secret", 0, 0, none⟩] } ∧
    (postLogin sampleRuntime sampleStore ⟨.str "Ann@Example.com", .str "guess1"⟩).calls =
      (postLogin sampleRuntime
        { sampleStore with Users :=
            [⟨161, "Ann", "Lee", "ann@example.com", "hash:secret", 0, 0, none⟩] }
        ⟨.str "Ann@Example.com", .str "guess1"⟩).calls :=
  login_non_enumeration sampleRuntime sampleRuntime sampleStore
    { sampleStore with Users :=
        [⟨161, "Ann", "Lee", "ann@example.com", "hash:secret", 0, 0, none⟩] }
    "Ann@Example.com" "guess1" ⟨161, "Ann", "Lee", "ann@example.com", "hash:secret", 0, 0, none⟩
    (by decide) (by decide) (by decide) (by decide) (by decide)

/-! ## `parseInt` -/

theorem digitValue_decimal (c : Char) (h : isDecimalDigit c = true) :
    digitValue 10 c = some (c.toNat - 48) := by
  simp only [isDecimalDigit, Bool.and_eq_true, decide_eq_true_eq] at h
  have h3 : c.toNat - 48 < 10 := by omega
  simp [digitValue, h.1, h.2, h3]

theorem readDigits_decimal :
    ∀ (ds : List Char) (acc : Nat) (any : Bool), ds.all isDecimalDigit = true →
      (any = true ∨ ds ≠ []) →
      readDigits 10 ds acc any = some (ds.foldl (fun a c => a * 10 + (c.toNat - 48)) acc) := by
  intro ds
  induction ds with
  | nil =>
    intro acc any _ h
    rcases h with h | h
    · simp [readDigits, h]
    · exact absurd rfl h
  | cons c cs ih =>
    intro acc any hall _
    simp only [List.all_cons, Bool.and_eq_true] at hall
    simp only [readDigits, digitValue_decimal c hall.1, List.foldl_cons]
    exact ih _ true hall.2 (Or.inl rfl)

/-- A sign is not a digit, no digit is white space, and `x` is not a digit. -/
theorem isDecimalDigit_facts (c : Char) (h : isDecimalDigit c = true) :
    isWhiteSpace c = false ∧ c ≠ '-' ∧ c ≠ '+' ∧ c ≠ 'x' ∧ c ≠ 'X' := by
  simp only [isDecimalDigit, Bool.and_eq_true, decide_eq_true_eq] at h
  refine ⟨?_, ?_, ?_, ?_, ?_⟩
  · simp only [isWhiteSpace, Bool.or_eq_false_iff, beq_eq_false_iff_ne, Bool.and_eq_false_iff,
      decide_eq_false_iff_not]
    omega
  all_goals
    intro hc
    rw [hc] at h
    revert h
    decide

/-- The run of decimal digits `ds` is read whole, in radix 10. -/
theorem readDigits_run (ds : List Char) (hne : ds ≠ [])
    (hall : ds.all isDecimalDigit = true) :
    (startsWith ds ['0', 'x'] || startsWith ds ['0', 'X']) = false ∧
    readDigits 10 ds 0 false = some (decimalValue ds) := by
  refine ⟨?_, readDigits_decimal ds 0 false hall (Or.inr hne)⟩
  cases ds with
  | nil => exact absurd rfl hne
  | cons c cs =>
    cases cs with
    | nil => simp [startsWith]
    | cons d rest =>
      simp only [List.all_cons, Bool.and_eq_true] at hall
      have hd := isDecimalDigit_facts d hall.2.1
      simp [startsWith, hd.2.2.2.1, hd.2.2.2.2]

theorem toNumber_small (m : Nat) (h : m < 2 ^ 53) : toNumber m = some m := by
  unfold toNumber
  rw [if_pos h]

/-- The value `parseInt` gives for a run of decimal digits below `2^53`, bare
or after a sign. -/
theorem parseInt_run (ds : List Char) (hne : ds ≠ []) (hall : ds.all isDecimalDigit = true)
    (hv : decimalValue ds < 2 ^ 53) :
    parseInt ds = some (decimalValue ds : Int) ∧
    parseInt ('+' :: ds) = some (decimalValue ds : Int) ∧
    parseInt ('-' :: ds) = some (-(decimalValue ds : Int)) := by
  obtain ⟨hx, hread⟩ := readDigits_run ds hne hall
  have htn := toNumber_small _ hv
  have hminus : List.dropWhile isWhiteSpace ('-' :: ds) = '-' :: ds := rfl
  have hplus : List.dropWhile isWhiteSpace ('+' :: ds) = '+' :: ds := rfl
  refine ⟨?_, ?_, ?_⟩
  · cases ds with
    | nil => exact absurd rfl hne
    | cons c cs =>
      have hc : isDecimalDigit c = true := by
        simp only [List.all_cons, Bool.and_eq_true] at hall
        exact hall.1
      have hf := isDecimalDigit_facts c hc
      have hdrop : List.dropWhile isWhiteSpace (c :: cs) = c :: cs := by
        simp [List.dropWhile_cons, hf.1]
      have h1 : (some c == some '-') = false := by simpa using hf.2.1
      have h2 : (some c == some '+') = false := by simpa using hf.2.2.1
      simp only [parseInt, hdrop, List.head?_cons, h1, h2, Bool.or_self, Bool.false_eq_true,
        if_false, hx, hread, htn]
  · have h1 : (some '+' == some '-') = false := by decide
    simp only [parseInt, hplus, List.head?_cons, h1, beq_self_eq_true, Bool.or_true, if_true,
      List.tail_cons, hx, Bool.false_eq_true, if_false, hread, htn]
  · simp only [parseInt, hminus, List.head?_cons, beq_self_eq_true, Bool.true_or, if_true,
      List.tail_cons, hx, Bool.false_eq_true, if_false, hread, htn]

/-- An integer literal of magnitude below `2^53` is parsed by `parseInt` to
the integer it denotes. -/
theorem parseInt_integerLiteral (s : List Char) (n : Int)
    (h : integerLiteral s = some n) (hsmall : n.natAbs < 2 ^ 53) :
    parseInt s = some n := by
  cases s with
  | nil => simp [integerLiteral] at h
  | cons c cs =>
    by_cases hm : c = '-'
    · subst hm
      simp only [integerLiteral, List.head?_cons, beq_self_eq_true, Bool.true_or, if_true,
        List.tail_cons] at h
      split at h
      · rename_i hcond
        simp only [Bool.and_eq_true, Bool.not_eq_true', List.isEmpty_eq_false] at hcond
        simp only [Option.some.injEq] at h
        subst h
        exact (parseInt_run cs hcond.1 hcond.2 (by simpa using hsmall)).2.2
      · cases h
    · by_cases hp : c = '+'
      · subst hp
        simp only [integerLiteral, List.head?_cons, beq_self_eq_true, Bool.or_true, if_true,
          List.tail_cons] at h
        split at h
        · rename_i hcond
          simp only [Bool.and_eq_true, Bool.not_eq_true', List.isEmpty_eq_false] at hcond
          have hne : ('+' == '-') = false := by decide
          simp only [hne, Bool.false_eq_true, if_false, Option.some.injEq] at h
          subst h
          exact (parseInt_run cs hcond.1 hcond.2 (by simpa using hsmall)).2.1
        · cases h
      · have h1 : (some c == some '-') = false := by simpa using hm
        have h2 : (some c == some '+') = false := by simpa using hp
        simp only [integerLiteral, List.head?_cons, h1, h2, Bool.or_self, Bool.false_eq_true,
          if_false] at h
        split at h
        · rename_i hcond
          simp only [Bool.and_eq_true, Bool.not_eq_true', List.isEmpty_eq_false] at hcond
          simp only [Option.some.injEq] at h
          subst h
          exact (parseInt_run (c :: cs) (by simp) hcond.2 (by simpa using hsmall)).1
        · cases h

theorem digitValue_ten_none (c : Char) (h : isDecimalDigit c = false) :
    digitValue 10 c = none := by
  simp only [isDecimalDigit, Bool.and_eq_false_iff, decide_eq_false_iff_not] at h
  unfold digitValue
  simp only
  split_ifs with h1 h2 h3
  · omega
  · have : ¬ (c.toNat - 87 < 10) := by omega
    simp [this]
  · have : ¬ (c.toNat - 55 < 10) := by omega
    simp [this]
  · rfl

/-- A text that is non-numeric has no integer for `parseInt` to return. -/
theorem parseInt_nonNumeric (s : List Char) (h : nonNumeric s = true) : parseInt s = none := by
  unfold nonNumeric afterSign at h
  unfold parseInt
  simp only at h ⊢
  generalize (if (List.dropWhile isWhiteSpace s).head? == some '-' ||
      (List.dropWhile isWhiteSpace s).head? == some '+'
    then (List.dropWhile isWhiteSpace s).tail else List.dropWhile isWhiteSpace s) = u at h ⊢
  cases u with
  | nil => simp [startsWith, readDigits]
  | cons c cs =>
    simp only [List.head?_cons, Bool.not_eq_true'] at h
    have hz : c ≠ '0' := by
      intro hc
      rw [hc] at h
      revert h
      decide
    have hx : (startsWith (c :: cs) ['0', 'x'] || startsWith (c :: cs) ['0', 'X']) = false := by
      simp [startsWith, hz]
    simp [hx, readDigits, digitValue_ten_none c h]

/-! ## Product routes -/

theorem find_id_none {ps : List Product} {oid : ObjectId} :
    ps.find? (fun p => p._id == oid) = none ↔ ∀ p ∈ ps, p._id ≠ oid := by
  simp [List.find?_eq_none]

/-- C8, counterexample. The string "205abc" is not an integer literal and
not a store identifier of the sample runtime, yet the legacy lookup matches:
`parseInt` reads the leading 205 and the route returns the product with
legacy id 205.  The same happens for " 205", "205.9" and "0xCD". -/
theorem getProductById_leading_integer_matches :
    integerLiteral "205abc".data = none ∧
    sampleRuntime.objectId "205abc" = none ∧
    findProductById sampleStore.Products (parseInt "205abc".data) = some atomicHabits ∧
    (getProductById sampleRuntime sampleStore "205abc").response =
      ⟨200, .product atomicHabits⟩ ∧
    integerLiteral " 205".data = none ∧
    (getProductById sampleRuntime sampleStore " 205").response =
      ⟨200, .product atomicHabits⟩ ∧
    integerLiteral "205.9".data = none ∧
    (getProductById sampleRuntime sampleStore "205.9").response =
      ⟨200, .product atomicHabits⟩ ∧
    integerLiteral "0xCD".data = none ∧
    (getProductById sampleRuntime sampleStore "0xCD").response =
      ⟨200, .product atomicHabits⟩ := by
  decide

/-- C8, amended. Fetch-product-by-id resolves an identifier string by
`parseInt`, which reads the integer at the front of the string and ignores
what follows.  When a product has the legacy id `parseInt` yields, the first
such product is returned; an integer literal of magnitude below `2^53` yields
the integer it denotes; a non-numeric string (one that, after white space and
a sign, does not start with a digit) yields no legacy match and no error.
When there is no legacy match and the raw string is a valid store identifier,
the product with that identifier is returned.  The answer is 404 "Product not
found" exactly when both lookups fail.  The store is never changed.  On a
store holding the product with id 205, "Atomic Habits", the id "205" returns
that record. -/
theorem getProductById_resolution (rt : Runtime) (s : Store) (id : String) :
    (∀ p, findProductById s.Products (parseInt id.data) = some p →
      parseInt id.data = some p.id ∧ p ∈ s.Products ∧
      (getProductById rt s id).response = ⟨200, .product p⟩) ∧
    (∀ n : Int, integerLiteral id.data = some n → n.natAbs < 2 ^ 53 →
      parseInt id.data = some n) ∧
    (nonNumeric id.data = true →
      findProductById s.Products (parseInt id.data) = none) ∧
    (findProductById s.Products (parseInt id.data) = none →
      ∀ oid p, rt.objectId id = some oid →
        s.Products.find? (fun x => x._id == oid) = some p →
        p._id = oid ∧ (getProductById rt s id).response = ⟨200, .product p⟩) ∧
    ((getProductById rt s id).response = ⟨404, .message "Product not found"⟩ ↔
      (∀ p ∈ s.Products, parseInt id.data ≠ some p.id) ∧
      ∀ oid, rt.objectId id = some oid → ∀ p ∈ s.Products, p._id ≠ oid) ∧
    (getProductById rt s id).store = s ∧
    (getProductById rt sampleStore "205").response = ⟨200, .product atomicHabits⟩ := by
  refine ⟨?_, ?_, ?_, ?_, ?_, ?_, ?_⟩
  · intro p hp
    exact ⟨(findProductById_some hp).1, (findProductById_some hp).2,
      by simp [getProductById, hp]⟩
  · intro n hn hsmall
    exact parseInt_integerLiteral _ n hn hsmall
  · intro h
    rw [parseInt_nonNumeric _ h]
    rfl
  · intro hnone oid p hoid hp
    have h1 := List.find?_some hp
    simp only [beq_iff_eq] at h1
    exact ⟨h1, by simp [getProductById, hnone, hoid, hp]⟩
  · rw [← findProductById_none]
    cases hl : findProductById s.Products (parseInt id.data) with
    | some p => simp [getProductById, hl]
    | none =>
      cases ho : rt.objectId id with
      | none => simp [getProductById, hl, ho]
      | some oid =>
        cases hf : s.Products.find? (fun x => x._id == oid) with
        | none =>
          have := find_id_none.mp hf
          simp [getProductById, hl, ho, hf]
          exact this
        | some p =>
          have h1 := List.find?_some hf
          have h2 := List.mem_of_find?_eq_some hf
          simp only [beq_iff_eq] at h1
          simp only [getProductById, hl, ho, hf, true_and]
          constructor
          · intro h
            cases h
          · intro h
            exact absurd h1 (h oid rfl p h2)
  · unfold getProductById
    split
    · rfl
    · split
      · rfl
      · split <;> rfl
  · have h : findProductById sampleStore.Products (parseInt "205".data) = some atomicHabits := by
      decide
    simp [getProductById, h]

/-- C8, worked case: the sample store identifier `a1` is not numeric; it is
resolved by the second lookup, which finds no product with that identifier. -/
theorem getProductById_resolution_witness :
    findProductById sampleStore.Products (parseInt "a1".data) = none ∧
    (getProductById sampleRuntime sampleStore "a1").response =
      ⟨404, .message "Product not found"⟩ :=
  ⟨(getProductById_resolution sampleRuntime sampleStore "a1").2.2.1 (by decide),
   (getProductById_resolution sampleRuntime sampleStore "a1").2.2.2.2.1.mpr
     ⟨by decide, by decide⟩⟩

/-! ## Auth middleware -/

/-- The three outcomes of `verifyToken`. -/
theorem verifyToken_cases (rt : Runtime) (authorization : Option String) :
    (extractToken authorization = none ∧
      verifyToken rt authorization = .respond ⟨401, .message "No token provided"⟩) ∨
    (∃ token, extractToken authorization = some token ∧ rt.jwtVerify token = none ∧
      verifyToken rt authorization = .respond ⟨401, .message "Invalid token"⟩) ∨
    (∃ token user, extractToken authorization = some token ∧
      rt.jwtVerify token = some user ∧ verifyToken rt authorization = .next user) := by
  cases ht : extractToken authorization with
  | none => left; simp [verifyToken, ht]
  | some token =>
    right
    cases hv : rt.jwtVerify token with
    | none => left; exact ⟨token, rfl, hv, by simp [verifyToken, ht, hv]⟩
    | some user => right; exact ⟨token, user, rfl, hv, by simp [verifyToken, ht, hv]⟩

/-- C9. Auth middleware gate.  The protected handler runs if and only if a
token is extracted from the authorization header and its verification
succeeds, and then it runs on the decoded identity.  When no token can be
extracted the answer is 401 "No token provided" whatever the verifier would
say; when verification fails the answer is 401 "Invalid token".  In both 401
cases the answer does not depend on the handler, the store is unchanged and
no store call is made; this holds for `/admin/stats` and `/cart/add`. -/
theorem verifyToken_gate (rt : Runtime) (authorization : Option String) :
    ((∃ user, verifyToken rt authorization = .next user) ↔
      ∃ token user, extractToken authorization = some token ∧
        rt.jwtVerify token = some user) ∧
    (∀ token user, extractToken authorization = some token →
      rt.jwtVerify token = some user →
      verifyToken rt authorization = .next user ∧
      ∀ s handler, protect rt authorization s handler = handler user) ∧
    (extractToken authorization = none →
      ∀ rt1 : Runtime,
        verifyToken rt1 authorization = .respond ⟨401, .message "No token provided"⟩) ∧
    (∀ token, extractToken authorization = some token → rt.jwtVerify token = none →
      verifyToken rt authorization = .respond ⟨401, .message "Invalid token"⟩) ∧
    ((∀ user, verifyToken rt authorization ≠ .next user) →
      ∀ s handler, (protect rt authorization s handler).response.status = 401 ∧
        (protect rt authorization s handler).store = s ∧
        (protect rt authorization s handler).calls = []) ∧
    ((∀ user, verifyToken rt authorization ≠ .next user) →
      ∀ s body, (getAdminStats rt s authorization).response.status = 401 ∧
        (getAdminStats rt s authorization).calls = [] ∧
        (postCartAdd rt s authorization body).response.status = 401 ∧
        (postCartAdd rt s authorization body).store = s ∧
        (postCartAdd rt s authorization body).calls = []) := by
  have hprot : (∀ user, verifyToken rt authorization ≠ .next user) →
      ∀ s handler, (protect rt authorization s handler).response.status = 401 ∧
        (protect rt authorization s handler).store = s ∧
        (protect rt authorization s handler).calls = [] := by
    intro hno s handler
    rcases verifyToken_cases rt authorization with ⟨_, h⟩ | ⟨_, _, _, h⟩ | ⟨_, user, _, _, h⟩
    · simp [protect, h]
    · simp [protect, h]
    · exact absurd h (hno user)
  refine ⟨?_, ?_, ?_, ?_, hprot, ?_⟩
  · constructor
    · rintro ⟨user, hu⟩
      rcases verifyToken_cases rt authorization with ⟨_, h⟩ | ⟨_, _, _, h⟩ | ⟨t, u, h1, h2, _⟩
      · rw [h] at hu
        cases hu
      · rw [h] at hu
        cases hu
      · exact ⟨t, u, h1, h2⟩
    · rintro ⟨token, user, h1, h2⟩
      exact ⟨user, by simp [verifyToken, h1, h2]⟩
  · intro token user h1 h2
    have hv : verifyToken rt authorization = .next user := by simp [verifyToken, h1, h2]
    exact ⟨hv, fun s handler => by simp [protect, hv]⟩
  · intro h rt1
    simp [verifyToken, h]
  · intro token h1 h2
    simp [verifyToken, h1, h2]
  · intro hno s body
    have h1 := hprot hno s (adminStats s)
    have h2 := hprot hno s (cartAdd rt s body)
    exact ⟨h1.1, h1.2.2, h2.1, h2.2.1, h2.2.2⟩

/-- C9, worked cases: the header "Bearer good" lets the sample user through
to `/admin/stats`; no header, and a header with nothing after the scheme, are
answered with 401 "No token provided"; "Bearer bad" is answered with 401
"Invalid token", and `/cart/add` then leaves the sample store alone. -/
theorem verifyToken_gate_witness :
    (verifyToken sampleRuntime (some "Bearer good") = .next sampleUser ∧
      ∀ s handler, protect sampleRuntime (some "Bearer good") s handler = handler sampleUser) ∧
    (∀ rt1 : Runtime,
      verifyToken rt1 none = .respond ⟨401, .message "No token provided"⟩) ∧
    (∀ rt1 : Runtime,
      verifyToken rt1 (some "Bearer") = .respond ⟨401, .message "No token provided"⟩) ∧
    verifyToken sampleRuntime (some "Bearer bad") =
      .respond ⟨401, .message "Invalid token"⟩ ∧
    (∀ s body, (getAdminStats sampleRuntime s (some "Bearer bad")).response.status = 401 ∧
        (getAdminStats sampleRuntime s (some "Bearer bad")).calls = [] ∧
        (postCartAdd sampleRuntime s (some "Bearer bad") body).response.status = 401 ∧
        (postCartAdd sampleRuntime s (some "Bearer bad") body).store = s ∧
        (postCartAdd sampleRuntime s (some "Bearer bad") body).calls = []) :=
  ⟨(verifyToken_gate sampleRuntime (some "Bearer good")).2.1 "good" sampleUser
      (by decide) (by decide),
   (verifyToken_gate sampleRuntime none).2.2.1 (by decide),
   (verifyToken_gate sampleRuntime (some "Bearer")).2.2.1 (by decide),
   (verifyToken_gate sampleRuntime (some "Bearer bad")).2.2.2.1 "bad" (by decide) (by decide),
   (verifyToken_gate sampleRuntime (some "Bearer bad")).2.2.2.2.2
     (fun user h => Outcome.noConfusion h)⟩

/-! ## Product search -/

/-- A pattern of literal characters matches at the front of a text exactly
when the text starts with those characters. -/
theorem matchAtoms_literals (eq : Char → Char → Bool) :
    ∀ (q s : List Char),
      matchAtoms eq (fun _ => true) (q.map Atom.lit) s = startsWithBy eq s q := by
  intro q
  induction q with
  | nil =>
    intro s
    cases s <;> simp [matchAtoms, startsWithBy]
  | cons c q ih =>
    intro s
    cases s with
    | nil => simp [matchAtoms, startsWithBy]
    | cons x s => simp [matchAtoms, startsWithBy, ih]

/-- Searching for a pattern of literal characters is substring search. -/
theorem searchAtoms_literals (eq : Char → Char → Bool) (q : List Char) :
    ∀ s : List Char, searchAtoms eq (q.map Atom.lit) s = includesBy eq s q := by
  intro s
  induction s with
  | nil => simp [searchAtoms, includesBy, matchAtoms_literals]
  | cons x s ih => simp [searchAtoms, includesBy, matchAtoms_literals, ih]

theorem patternAtoms_cons (c : Char) (q : List Char) :
    patternAtoms (c :: q) =
      (if c == '.' then Atom.cls (fun x => !isLineTerminator x) else Atom.lit c) ::
        patternAtoms q := rfl

/-- A pattern of plain characters and dots matches at the front of a text
exactly when each of its characters matches the text character at its place. -/
theorem matchAtoms_pattern (rt : Runtime) :
    ∀ (q s : List Char),
      matchAtoms (caseEq rt) (fun _ => true) (patternAtoms q) s =
        startsWithBy (patternCharMatches rt) s q := by
  intro q
  induction q with
  | nil =>
    intro s
    cases s <;> simp [patternAtoms, matchAtoms, startsWithBy]
  | cons c q ih =>
    intro s
    rw [patternAtoms_cons]
    cases s with
    | nil =>
      by_cases hc : (c == '.') = true
      · rw [if_pos hc]
        simp [matchAtoms, startsWithBy]
      · rw [if_neg hc]
        simp [matchAtoms, startsWithBy]
    | cons x s =>
      by_cases hc : (c == '.') = true
      · rw [if_pos hc]
        simp only [matchAtoms, startsWithBy, patternCharMatches, ih, if_pos hc]
      · rw [if_neg hc]
        simp only [matchAtoms, startsWithBy, patternCharMatches, ih, if_neg hc]

/-- Searching for a pattern of plain characters and dots. -/
theorem searchAtoms_pattern (rt : Runtime) (q : List Char) :
    ∀ s : List Char,
      searchAtoms (caseEq rt) (patternAtoms q) s = includesBy (patternCharMatches rt) s q := by
  intro s
  induction s with
  | nil => simp [searchAtoms, includesBy, matchAtoms_pattern]
  | cons x s ih => simp [searchAtoms, includesBy, matchAtoms_pattern, ih]

/-- A query without syntax characters compiles to its characters as literals. -/
theorem patternAtoms_plain (q : List Char) (h : ∀ c ∈ q, isSyntaxChar c = false) :
    inFragment q = true ∧ patternAtoms q = q.map Atom.lit := by
  constructor
  · simp only [inFragment, List.all_eq_true]
    intro c hc
    simp [h c hc]
  · simp only [patternAtoms]
    apply List.map_congr_left
    intro c hc
    have hdot : c ≠ '.' := by
      intro hd
      have := h c hc
      rw [hd] at this
      revert this
      decide
    simp [hdot]

/-- On ASCII characters the comparison is equality up to the case of letters. -/
theorem caseEq_ascii (rt : Runtime) (a b : Char) (ha : a.toNat < 128) (hb : b.toNat < 128) :
    caseEq rt a b = (asciiLower a == asciiLower b) := by
  unfold caseEq
  by_cases hab : a = b
  · subst hab
    simp
  · simp [hab, ha, hb]

theorem startsWithBy_ascii (rt : Runtime) :
    ∀ (q s : List Char), (∀ c ∈ q, c.toNat < 128) → (∀ c ∈ s, c.toNat < 128) →
      startsWithBy (caseEq rt) s q = startsWith (s.map asciiLower) (q.map asciiLower) := by
  intro q
  induction q with
  | nil =>
    intro s _ _
    cases s <;> simp [startsWithBy, startsWith]
  | cons c q ih =>
    intro s hq hs
    cases s with
    | nil => simp [startsWithBy, startsWith]
    | cons x s =>
      have h1 := caseEq_ascii rt c x (hq c (List.mem_cons_self _ _))
        (hs x (List.mem_cons_self _ _))
      have h2 := ih s (fun d hd => hq d (List.mem_cons_of_mem _ hd))
        (fun d hd => hs d (List.mem_cons_of_mem _ hd))
      simp only [startsWithBy, startsWith, List.map_cons, h1, h2]
      rw [Bool.beq_comm]

/-- On ASCII text, containing a query case-insensitively is containing the
lower-cased query in the lower-cased text. -/
theorem includesBy_ascii (rt : Runtime) (q : List Char) (hq : ∀ c ∈ q, c.toNat < 128) :
    ∀ s : List Char, (∀ c ∈ s, c.toNat < 128) →
      includesBy (caseEq rt) s q = includes (s.map asciiLower) (q.map asciiLower) := by
  intro s
  induction s with
  | nil =>
    intro hs
    simp only [includesBy, includes, List.map_nil]
    exact startsWithBy_ascii rt q [] hq hs
  | cons x s ih =>
    intro hs
    have h1 := startsWithBy_ascii rt q (x :: s) hq hs
    have h2 := ih (fun d hd => hs d (List.mem_cons_of_mem _ hd))
    simp only [includesBy, includes, List.map_cons] at h1 h2 ⊢
    rw [h1, h2]

/-- The search route on a query that is not blank. -/
theorem searchProducts_nonblank (rt : Runtime) (s : Store) (q : String)
    (hq : blank (some q) = false) :
    searchProducts rt s (some q) =
      match searchRegex rt q.data with
      | none => ⟨⟨500, .message "Search failed"⟩, s, []⟩
      | some re =>
        ⟨⟨200, .products (s.Products.filter (fun p =>
            re p.title.data || re p.author.data || re p.genre.data || re p.description.data))⟩,
          s, [.find "Products"]⟩ := by
  simp only [searchProducts, hq]
  rfl

/-- C10, counterexample. The query "Atom.c" is not blank, no field of a
sample product contains "atom.c" in any letter case, and yet the search
returns the product "Atomic Habits": the query is compiled as a regular
expression, in which `.` matches any character.  So the result is not the set
of records containing the query as a substring. -/
theorem searchProducts_query_is_pattern :
    blank (some "Atom.c") = false ∧
    sampleStore.Products.filter (recordContains (caseEq sampleRuntime) "Atom.c".data) = [] ∧
    sampleStore.Products.filter (recordContainsLower "Atom.c".data) = [] ∧
    (searchProducts sampleRuntime sampleStore (some "Atom.c")).response =
      ⟨200, .products [atomicHabits]⟩ ∧
    ¬ (∀ (rt : Runtime) (s : Store) (q : String), blank (some q) = false →
        (searchProducts rt s (some q)).response =
          ⟨200, .products (s.Products.filter (recordContains (caseEq rt) q.data))⟩) := by
  refine ⟨by decide, by decide, by decide, by decide, ?_⟩
  intro h
  exact absurd (h sampleRuntime sampleStore "Atom.c" (by decide)) (by decide)

/-- C10, amended. For a query that is not blank and has no character with a
meaning in regular expression syntax (and no NUL), the result is exactly the
product records whose title, author, genre or description contains the query
as a substring, compared case-insensitively, in store order, and the store is
only read.  The comparison lets every character match itself and two ASCII
characters match when they are the same letter in either case; on ASCII text
a record matches exactly when a field, lower-cased, includes the lower-cased
query.  A query of plain characters and dots is a pattern in which each dot
stands for any one character but a line terminator.  Any other query that is
not blank is handed to the regular expression engine: the result holds the
records of which a field matches, or the answer is 500 "Search failed" when
the pattern is rejected.  For a query that is absent, empty or only white
space the answer is 400 "Search query is required" and no store call is
made. -/
theorem searchProducts_contract (rt : Runtime) (s : Store) :
    (∀ q : String, blank (some q) = false → (∀ c ∈ q.data, isSyntaxChar c = false) →
      (searchProducts rt s (some q)).response =
        ⟨200, .products (s.Products.filter (recordContains (caseEq rt) q.data))⟩ ∧
      (searchProducts rt s (some q)).store = s ∧
      (searchProducts rt s (some q)).calls = [.find "Products"]) ∧
    ((∀ c : Char, caseEq rt c c = true) ∧
      ∀ a b : Char, a.toNat < 128 → b.toNat < 128 →
        (caseEq rt a b = true ↔ asciiLower a = asciiLower b)) ∧
    (∀ (q : List Char) (p : Product), asciiText q → asciiText p.title.data →
      asciiText p.author.data → asciiText p.genre.data → asciiText p.description.data →
      recordContains (caseEq rt) q p = recordContainsLower q p) ∧
    (∀ q : String, blank (some q) = false → inFragment q.data = true →
      (searchProducts rt s (some q)).response =
        ⟨200, .products (s.Products.filter (recordContains (patternCharMatches rt) q.data))⟩ ∧
      (searchProducts rt s (some q)).store = s ∧
      (searchProducts rt s (some q)).calls = [.find "Products"]) ∧
    (∀ q : String, blank (some q) = false → inFragment q.data = false →
      (∀ re, rt.regExpOther q.data = some re →
        (searchProducts rt s (some q)).response =
          ⟨200, .products (s.Products.filter (fun p =>
            re p.title.data || re p.author.data || re p.genre.data ||
              re p.description.data))⟩) ∧
      (rt.regExpOther q.data = none →
        (searchProducts rt s (some q)).response = ⟨500, .message "Search failed"⟩ ∧
        (searchProducts rt s (some q)).calls = []) ∧
      (searchProducts rt s (some q)).store = s) ∧
    (∀ q : Option String, blank q = true →
      (searchProducts rt s q).response = ⟨400, .message "Search query is required"⟩ ∧
      (searchProducts rt s q).store = s ∧
      (searchProducts rt s q).calls = []) := by
  refine ⟨?_, ⟨?_, ?_⟩, ?_, ?_, ?_, ?_⟩
  · intro q hq hplain
    obtain ⟨hfrag, hatoms⟩ := patternAtoms_plain q.data hplain
    have hre : searchRegex rt q.data =
        some (searchAtoms (caseEq rt) (q.data.map Atom.lit)) := by
      simp [searchRegex, hfrag, hatoms]
    rw [searchProducts_nonblank rt s q hq, hre]
    refine ⟨?_, rfl, rfl⟩
    simp only [searchAtoms_literals]
    rfl
  · intro c
    simp [caseEq]
  · intro a b ha hb
    rw [caseEq_ascii rt a b ha hb]
    simp
  · intro q p hq h1 h2 h3 h4
    simp only [recordContains, recordContainsLower, includesBy_ascii rt q hq _ h1,
      includesBy_ascii rt q hq _ h2, includesBy_ascii rt q hq _ h3,
      includesBy_ascii rt q hq _ h4]
  · intro q hq hfrag
    have hre : searchRegex rt q.data =
        some (searchAtoms (caseEq rt) (patternAtoms q.data)) := by
      simp [searchRegex, hfrag]
    rw [searchProducts_nonblank rt s q hq, hre]
    refine ⟨?_, rfl, rfl⟩
    simp only [searchAtoms_pattern]
    rfl
  · intro q hq hfrag
    have hre : searchRegex rt q.data = rt.regExpOther q.data := by
      simp [searchRegex, hfrag]
    rw [searchProducts_nonblank rt s q hq, hre]
    refine ⟨?_, ?_, ?_⟩
    · intro re hre1
      rw [hre1]
    · intro hnone
      rw [hnone]
      exact ⟨rfl, rfl⟩
    · cases rt.regExpOther q.data <;> rfl
  · intro q hq
    cases q with
    | none => exact ⟨rfl, rfl, rfl⟩
    | some qs => simp [searchProducts, hq]

/-- C10, worked cases on the sample store: the query "Alchemist" returns
exactly the record of "The Alchemist", the one record with "alchemist" in a
lower-cased field; the pattern "Atom.c" returns "Atomic Habits"; the query
"(" is rejected by the sample runtime and answered with 500; the query of
three spaces is answered with 400 without a store call. -/
theorem searchProducts_contract_witness :
    ((searchProducts sampleRuntime sampleStore (some "Alchemist")).response =
        ⟨200, .products (sampleStore.Products.filter
          (recordContains (caseEq sampleRuntime) "Alchemist".data))⟩ ∧
      (searchProducts sampleRuntime sampleStore (some "Alchemist")).store = sampleStore ∧
      (searchProducts sampleRuntime sampleStore (some "Alchemist")).calls =
        [.find "Products"]) ∧
    sampleStore.Products.filter (recordContains (caseEq sampleRuntime) "Alchemist".data) =
      [theAlchemist] ∧
    sampleStore.Products.filter (recordContainsLower "Alchemist".data) = [theAlchemist] ∧
    ((searchProducts sampleRuntime sampleStore (some "Atom.c")).response =
        ⟨200, .products (sampleStore.Products.filter
          (recordContains (patternCharMatches sampleRuntime) "Atom.c".data))⟩ ∧
      (searchProducts sampleRuntime sampleStore (some "Atom.c")).store = sampleStore ∧
      (searchProducts sampleRuntime sampleStore (some "Atom.c")).calls =
        [.find "Products"]) ∧
    ((searchProducts sampleRuntime sampleStore (some "(")).response =
        ⟨500, .message "Search failed"⟩ ∧
      (searchProducts sampleRuntime sampleStore (some "(")).calls = []) ∧
    ((searchProducts sampleRuntime sampleStore (some "   ")).response =
        ⟨400, .message "Search query is required"⟩ ∧
      (searchProducts sampleRuntime sampleStore (some "   ")).store = sampleStore ∧
      (searchProducts sampleRuntime sampleStore (some "   ")).calls = []) :=
  ⟨(searchProducts_contract sampleRuntime sampleStore).1 "Alchemist" (by decide) (by decide),
   by decide, by decide,
   (searchProducts_contract sampleRuntime sampleStore).2.2.2.1 "Atom.c" (by decide)
     (by decide),
   ((searchProducts_contract sampleRuntime sampleStore).2.2.2.2.1 "(" (by decide)
     (by decide)).2.1 rfl,
   (searchProducts_contract sampleRuntime sampleStore).2.2.2.2.2 (some "   ") (by decide)⟩

/-! ## Reachability of the canned responses -/

theorem startsWith_iff (s k : List Char) :
    startsWith s k = true ↔ ∃ b, s = k ++ b := by
  induction k generalizing s with
  | nil => simp [startsWith]
  | cons d k ih =>
    cases s with
    | nil => simp [startsWith]
    | cons c s =>
      simp only [startsWith, Bool.and_eq_true, beq_iff_eq, ih, List.cons_append,
        List.cons.injEq]
      constructor
      · rintro ⟨rfl, b, rfl⟩
        exact ⟨b, rfl, rfl⟩
      · rintro ⟨b, rfl, rfl⟩
        exact ⟨rfl, b, rfl⟩

/-- The text `s` includes `k` exactly when `k` stands between two parts of `s`. -/
theorem includes_iff (s k : List Char) :
    includes s k = true ↔ ∃ a b, s = a ++ k ++ b := by
  induction s with
  | nil =>
    simp only [includes, startsWith_iff]
    constructor
    · rintro ⟨b, hb⟩
      exact ⟨[], b, by simpa using hb⟩
    · rintro ⟨a, b, hab⟩
      have h1 : a = [] := by
        cases a with
        | nil => rfl
        | cons x a => simp at hab
      subst h1
      exact ⟨b, by simpa using hab⟩
  | cons c s ih =>
    simp only [includes, Bool.or_eq_true, startsWith_iff, ih]
    constructor
    · rintro (⟨b, hb⟩ | ⟨a, b, hab⟩)
      · exact ⟨[], b, by simpa using hb⟩
      · exact ⟨c :: a, b, by simp [hab]⟩
    · rintro ⟨a, b, hab⟩
      cases a with
      | nil => exact Or.inl ⟨b, by simpa using hab⟩
      | cons x a =>
        simp only [List.cons_append, List.cons.injEq] at hab
        exact Or.inr ⟨a, b, by simpa using hab.2⟩

/-- A text that includes a word includes every part of that word. -/
theorem includes_part (s p k q : List Char) (h : includes s (p ++ k ++ q) = true) :
    includes s k = true := by
  obtain ⟨a, b, hab⟩ := (includes_iff s _).mp h
  exact (includes_iff s k).mpr ⟨a ++ p, q ++ b, by simp [hab]⟩

/-- Every text that includes "shipping" includes "hi". -/
theorem includes_shipping_hi (s : List Char) (h : includes s "shipping".data = true) :
    includes s "hi".data = true :=
  includes_part s "s".data "hi".data "pping".data h

/-- Every text that includes "account" includes "count". -/
theorem includes_account_count (s : List Char) (h : includes s "account".data = true) :
    includes s "count".data = true :=
  includes_part s "ac".data "count".data [] h

/-- The count sentence starts with "We c", which neither the response of
"shipping" nor the response of "account" does. -/
theorem countResponse_head (n : Nat) :
    ∃ rest, (countResponse n).data = 'W' :: 'e' :: ' ' :: 'c' :: rest := by
  refine ⟨"urrently have ".data ++ (toString n).data ++
    " books available in our collection across various genres!".data, ?_⟩
  simp only [countResponse, String.data_append]
  rfl

/-- The loop over two tables in a row is the loop over the first, started from
the result of the loop over the second. -/
theorem keywordLoop_append (lower : List Char) (d : String)
    (l1 l2 : List (String × String)) :
    keywordLoop lower d (l1 ++ l2) = keywordLoop lower (keywordLoop lower d l2) l1 := by
  induction l1 with
  | nil => rfl
  | cons kv l1 ih =>
    obtain ⟨k, t⟩ := kv
    by_cases h : includes lower k.data = true
    · simp [keywordLoop, h]
    · simp [keywordLoop, h, ih]

/-- The loop returns its initial response or a response of the table. -/
theorem keywordLoop_mem (lower : List Char) (d : String) (l : List (String × String)) :
    keywordLoop lower d l ∈ d :: l.map Prod.snd := by
  induction l with
  | nil => simp [keywordLoop]
  | cons kv l ih =>
    obtain ⟨k, t⟩ := kv
    by_cases h : includes lower k.data = true
    · simp [keywordLoop, h]
    · simp only [keywordLoop, h, if_false, List.map_cons, List.mem_cons] at ih ⊢
      rcases ih with ih | ih
      · exact Or.inl ih
      · exact Or.inr (Or.inr ih)

/-- When the text includes a keyword of the table, the loop returns a response
of the table. -/
theorem keywordLoop_hit (lower : List Char) (d : String) (l : List (String × String))
    (h : ∃ kv ∈ l, includes lower kv.1.data = true) :
    keywordLoop lower d l ∈ l.map Prod.snd := by
  induction l with
  | nil =>
    obtain ⟨kv, hkv, _⟩ := h
    simp at hkv
  | cons kv l ih =>
    obtain ⟨k, t⟩ := kv
    by_cases hk : includes lower k.data = true
    · simp [keywordLoop, hk]
    · obtain ⟨kv1, hmem, hinc⟩ := h
      rcases List.mem_cons.mp hmem with rfl | hmem
      · exact absurd hinc hk
      · simp only [keywordLoop, hk, if_false, List.map_cons, List.mem_cons]
        exact Or.inr (ih ⟨kv1, hmem, hinc⟩)

/-- An entry whose keyword can only be included together with a keyword of an
earlier entry is skipped by the loop. -/
theorem keywordLoop_skips (lower : List Char) (d : String) (l1 : List (String × String))
    (e : String × String) (l3 : List (String × String))
    (h : includes lower e.1.data = true → ∃ kv ∈ l1, includes lower kv.1.data = true) :
    keywordLoop lower d (l1 ++ e :: l3) ∈ d :: (l1 ++ l3).map Prod.snd := by
  by_cases he : includes lower e.1.data = true
  · rw [keywordLoop_append]
    have := keywordLoop_hit lower (keywordLoop lower d (e :: l3)) l1 (h he)
    simp only [List.map_append, List.mem_cons, List.mem_append]
    exact Or.inr (Or.inl this)
  · have h1 : keywordLoop lower d (e :: l3) = keywordLoop lower d l3 := by
      obtain ⟨k, t⟩ := e
      simp only at he
      simp [keywordLoop, he]
    rw [keywordLoop_append, h1, ← keywordLoop_append]
    exact keywordLoop_mem lower d (l1 ++ l3)

/-- The responses the keyword loop can end on when "shipping" is skipped. -/
theorem keywordLoop_without_shipping (lower : List Char) :
    keywordLoop lower defaultResponse responses ∈
      defaultResponse :: (responses.take 5 ++ responses.drop 6).map Prod.snd := by
  have hsplit : responses =
      responses.take 5 ++ ("shipping", "We offer fast delivery across the UAE, usually within 2-3 business days. Orders are processed quickly and shipped with care.") :: responses.drop 6 := rfl
  have := keywordLoop_skips lower defaultResponse (responses.take 5)
    ("shipping", "We offer fast delivery across the UAE, usually within 2-3 business days. Orders are processed quickly and shipped with care.")
    (responses.drop 6)
    (fun h => ⟨("hi", "Hi there! I'm here to help you with anything related to our bookstore. What can I do for you?"),
      by decide, includes_shipping_hi lower h⟩)
  rw [← hsplit] at this
  exact this

/-- The responses the keyword loop can end on when the text does not include
"count", and with it not "account". -/
theorem keywordLoop_without_account (lower : List Char)
    (hc : includes lower "count".data = false) :
    keywordLoop lower defaultResponse responses ∈
      defaultResponse :: (responses.take 8 ++ responses.drop 9).map Prod.snd := by
  have hsplit : responses =
      responses.take 8 ++ ("account", "For account-related questions, you can register or login on our site. If you have specific account issues, please contact our support team.") :: responses.drop 9 := rfl
  have := keywordLoop_skips lower defaultResponse (responses.take 8)
    ("account", "For account-related questions, you can register or login on our site. If you have specific account issues, please contact our support team.")
    (responses.drop 9)
    (fun h => by
      have h2 := includes_account_count lower h
      rw [hc] at h2
      cases h2)
  rw [← hsplit] at this
  exact this

theorem shipping_text_elsewhere :
    ∀ kv ∈ responses, kv.1 = "shipping" →
      kv.2 ∉ defaultResponse :: (responses.take 5 ++ responses.drop 6).map Prod.snd := by
  decide

theorem account_text_elsewhere :
    ∀ kv ∈ responses, kv.1 = "account" →
      kv.2 ∉ defaultResponse :: (responses.take 8 ++ responses.drop 9).map Prod.snd := by
  decide

/-- Neither the count sentence nor the fallback sentence is the response of
"shipping" or of "account". -/
theorem count_sentences_differ :
    ∀ kv ∈ responses, (kv.1 = "shipping" ∨ kv.1 = "account") →
      ∀ n : Nat, countResponse n ≠ kv.2 ∧ fallbackResponse ≠ kv.2 := by
  have hdec : ∀ kv ∈ responses, (kv.1 = "shipping" ∨ kv.1 = "account") →
      kv.2.data.take 4 ≠ ['W', 'e', ' ', 'c'] ∧ fallbackResponse ≠ kv.2 := by
    decide
  intro kv hkv hk n
  refine ⟨?_, (hdec kv hkv hk).2⟩
  intro h
  obtain ⟨rest, hrest⟩ := countResponse_head n
  rw [h] at hrest
  exact (hdec kv hkv hk).1 (by rw [hrest]; rfl)

/-- The response bodies the chatbot never sends. -/
theorem chatbotRespond_never (kv : String × String) (hkv : kv ∈ responses)
    (hk : kv.1 = "shipping" ∨ kv.1 = "account") (rt : Runtime) (s : Store) (countOk : Bool)
    (message : Option String) :
    (chatbotRespond rt s countOk message).response.body ≠ .reply kv.2 := by
  cases message with
  | none => simp [chatbotRespond]
  | some m =>
    by_cases hb : blank (some m) = true
    · simp [chatbotRespond, hb]
    · have hb1 : blank (some m) = false := by simpa using hb
      rw [chatbotRespond_nonblank rt s countOk m hb1]
      by_cases hcount : (includes (toLowerCase rt m.data) "how many".data
          || includes (toLowerCase rt m.data) "count".data) = true
      · rw [if_pos hcount]
        have hd := count_sentences_differ kv hkv hk s.Products.length
        cases countOk with
        | true =>
          intro h
          simp only [if_true, Body.reply.injEq] at h
          exact hd.1 h
        | false =>
          intro h
          simp only [Bool.false_eq_true, if_false, Body.reply.injEq] at h
          exact hd.2 h
      · rw [if_neg hcount]
        simp only [Bool.or_eq_true, not_or, Bool.not_eq_true] at hcount
        intro h
        simp only [Body.reply.injEq] at h
        rcases hk with hk | hk
        · have hmem := keywordLoop_without_shipping (toLowerCase rt m.data)
          rw [h] at hmem
          exact shipping_text_elsewhere kv hkv hk hmem
        · have hmem := keywordLoop_without_account (toLowerCase rt m.data) hcount.2
          rw [h] at hmem
          exact account_text_elsewhere kv hkv hk hmem

/-- The answer to a message of Basic Latin characters that is not blank and
does not ask for a count, as a closed expression in the message. -/
theorem chatbotRespond_ascii (rt : Runtime) (s : Store) (countOk : Bool) (m : String)
    (hb : blank (some m) = false) (hascii : m.data.all (fun c => c.toNat < 128) = true)
    (hcount : (includes (m.data.map asciiLower) "how many".data
      || includes (m.data.map asciiLower) "count".data) = false) :
    (chatbotRespond rt s countOk (some m)).response =
      ⟨200, .reply (keywordLoop (m.data.map asciiLower) defaultResponse responses)⟩ := by
  have hl : toLowerCase rt m.data = m.data.map asciiLower := by
    unfold toLowerCase
    rw [if_pos hascii]
  rw [chatbotRespond_nonblank rt s countOk m hb, hl, hcount]
  rfl

/-- Each keyword other than "shipping" and "account", sent as the whole
message, selects its own entry of the mapping. -/
theorem keyword_selects_itself :
    ∀ kv ∈ responses, kv.1 ≠ "shipping" → kv.1 ≠ "account" →
      blank (some kv.1) = false ∧
      kv.1.data.all (fun c => c.toNat < 128) = true ∧
      (includes (kv.1.data.map asciiLower) "how many".data
        || includes (kv.1.data.map asciiLower) "count".data) = false ∧
      keywordLoop (kv.1.data.map asciiLower) defaultResponse responses = kv.2 := by
  decide

/-- C11. Reachability of the canned responses.  The response of a keyword of
the mapping is sent for some message if and only if the keyword is neither
"shipping" nor "account".  For every message and every outcome of the count
query the response is never the one of "shipping" (a text that includes
"shipping" includes the earlier keyword "hi") and never the one of "account"
(a text that includes "account" includes "count", so the count branch
overrides it); for each of the other 15 keywords of the 17 the message made
of just that keyword gets that keyword's response. -/
theorem chatbot_reachability :
    (∀ kv ∈ responses,
      ((∃ (rt : Runtime) (s : Store) (countOk : Bool) (m : Option String),
          (chatbotRespond rt s countOk m).response = ⟨200, .reply kv.2⟩) ↔
        (kv.1 ≠ "shipping" ∧ kv.1 ≠ "account"))) ∧
    (∀ kv ∈ responses, (kv.1 = "shipping" ∨ kv.1 = "account") →
      ∀ (rt : Runtime) (s : Store) (countOk : Bool) (m : Option String),
        (chatbotRespond rt s countOk m).response.body ≠ .reply kv.2) ∧
    (∀ lower : List Char, includes lower "shipping".data = true →
      includes lower "hi".data = true) ∧
    (∀ lower : List Char, includes lower "account".data = true →
      includes lower "count".data = true) ∧
    (∀ kv ∈ responses, kv.1 ≠ "shipping" → kv.1 ≠ "account" →
      ∀ (rt : Runtime) (s : Store) (countOk : Bool),
        (chatbotRespond rt s countOk (some kv.1)).response = ⟨200, .reply kv.2⟩) ∧
    responses.length = 17 ∧
    (responses.filter (fun kv => kv.1 != "shipping" && kv.1 != "account")).length = 15 ∧
    (responses.map (fun kv => kv.1)).indexOf "hi" <
      (responses.map (fun kv => kv.1)).indexOf "shipping" := by
  have hself : ∀ kv ∈ responses, kv.1 ≠ "shipping" → kv.1 ≠ "account" →
      ∀ (rt : Runtime) (s : Store) (countOk : Bool),
        (chatbotRespond rt s countOk (some kv.1)).response = ⟨200, .reply kv.2⟩ := by
    intro kv hkv h1 h2 rt s countOk
    obtain ⟨hb, hascii, hcount, hloop⟩ := keyword_selects_itself kv hkv h1 h2
    rw [chatbotRespond_ascii rt s countOk kv.1 hb hascii hcount, hloop]
  refine ⟨?_, fun kv hkv hk rt s countOk m => chatbotRespond_never kv hkv hk rt s countOk m,
    includes_shipping_hi, includes_account_count, hself, by decide, by decide, by decide⟩
  intro kv hkv
  constructor
  · rintro ⟨rt, s, countOk, m, h⟩
    have hbody : (chatbotRespond rt s countOk m).response.body = .reply kv.2 := by rw [h]
    constructor
    · intro hk
      exact chatbotRespond_never kv hkv (Or.inl hk) rt s countOk m hbody
    · intro hk
      exact chatbotRespond_never kv hkv (Or.inr hk) rt s countOk m hbody
  · rintro ⟨h1, h2⟩
    exact ⟨sampleRuntime, sampleStore, true, some kv.1,
      hself kv hkv h1 h2 sampleRuntime sampleStore true⟩

/-- C11, worked cases: the message "thanks" gets the response of "thanks";
the messages "shipping" and "My account" do not get the responses of
"shipping" and of "account". -/
theorem chatbot_reachability_witness :
    (chatbotRespond sampleRuntime sampleStore true (some "thanks")).response =
      ⟨200, .reply
        "You're very welcome! I'm glad I could help. Happy reading, and enjoy your books from RapidReads!"⟩ ∧
    (chatbotRespond sampleRuntime sampleStore true (some "shipping")).response.body ≠
      .reply "We offer fast delivery across the UAE, usually within 2-3 business days. Orders are processed quickly and shipped with care." ∧
    (chatbotRespond sampleRuntime sampleStore false (some "My account")).response.body ≠
      .reply "For account-related questions, you can register or login on our site. If you have specific account issues, please contact our support team." :=
  ⟨chatbot_reachability.2.2.2.2.1
      ("thanks", "You're very welcome! I'm glad I could help. Happy reading, and enjoy your books from RapidReads!")
      (by decide) (by decide) (by decide) sampleRuntime sampleStore true,
   chatbot_reachability.2.1
      ("shipping", "We offer fast delivery across the UAE, usually within 2-3 business days. Orders are processed quickly and shipped with care.")
      (by decide) (Or.inl rfl) sampleRuntime sampleStore true (some "shipping"),
   chatbot_reachability.2.1
      ("account", "For account-related questions, you can register or login on our site. If you have specific account issues, please contact our support team.")
      (by decide) (Or.inr rfl) sampleRuntime sampleStore false (some "My account")⟩

end RapidReads
